import Mathlib

/-!
Shallow embedding of the Akamai Property Manager Ansible module
(src/library/property_manager.py) and proofs about its orchestration
workflow: property search, version creation, rule-tree update and
activation with its polling loop.

The remote control plane, the file system and the parse outcome of every
HTTP body are modelled as an explicit environment consumed by the run.
A body of none stands for response text that is not valid JSON (parsing
it raises), some j stands for text that parses to the JSON value j.
Python exceptions and the two module.fail_json sites are modelled by an
explicit error kind threaded through every step together with the
mutable result dictionary and the list of outbound calls performed.
-/

/-- JSON values, the shape of every parsed HTTP body and rule-tree file. -/
inductive Json where
  | null : Json
  | bool : Bool → Json
  | num : Int → Json
  | str : String → Json
  | arr : List Json → Json
  | obj : List (String × Json) → Json

/-- Lookup of a key in the underlying association list of a JSON object
(Python dict subscript: first binding wins; Python dicts cannot hold
duplicate keys, so the list order is immaterial for faithful inputs). -/
def getKeyList : List (String × Json) → String → Option Json
  | [], _ => none
  | (k', v) :: rest, k => if k' = k then some v else getKeyList rest k

/-- Python subscript j[k]: none models both a missing key (KeyError) and
subscripting a non-dict value (TypeError); callers map none to the error. -/
def Json.getKey : Json → String → Option Json
  | .obj kvs, k => getKeyList kvs k
  | _, _ => none

/-- Assignment into an association list, replacing the first binding of the
key in place or appending a new one (Python dict item assignment). -/
def setKeyList : List (String × Json) → String → Json → List (String × Json)
  | [], k, v => [(k, v)]
  | (k', v') :: rest, k, v =>
    if k' = k then (k, v) :: rest else (k', v') :: setKeyList rest k v

/-- Python item assignment j[k] = v; none models TypeError on a non-dict. -/
def Json.setKey : Json → String → Json → Option Json
  | .obj kvs, k, v => some (.obj (setKeyList kvs k v))
  | _, _, _ => none

/-- Python falsiness of a JSON value (the not-operator in error_handling). -/
def Json.isFalsy : Json → Bool
  | .null => true
  | .bool b => !b
  | .num n => n == 0
  | .str s => s == ""
  | .arr l => l.isEmpty
  | .obj l => l.isEmpty

/-- Python equality of a JSON value against a string literal. -/
def Json.eqStr : Json → String → Bool
  | .str s, t => s == t
  | _, _ => false

/-!
Model of re.findall applied to the pattern dot-plus, slash, captured
digit-group, question mark, dot-plus (the versionLink extraction in
create_new_property_version, line 213 of the source).  The module only
uses element 0 of the findall result, i.e. the group of the leftmost
match, so only the first match is modelled.  Python regex semantics: the
scan tries start positions left to right; at a start position the
leading greedy dot-plus prefers the rightmost slash whose tail matches
digits, question mark, one more character; dot does not match a newline.
-/

/-- Match of the tail pattern: one or more digits, a question mark, and at
least one further (non-newline) character; returns the digit group. -/
def digitsThenQmark (l : List Char) : Option (List Char) :=
  let ds := l.takeWhile Char.isDigit
  match l.dropWhile Char.isDigit with
  | '?' :: c :: _ => if ds.isEmpty ∨ c = '\n' then none else some ds
  | _ => none

/-- Greedy backtracking of the leading dot-plus: among the slash positions
reachable without crossing a newline, the rightmost one whose tail matches
digitsThenQmark wins. -/
def lastSlash : List Char → Option (List Char)
  | [] => none
  | c :: rest =>
    if c = '\n' then none
    else
      match lastSlash rest with
      | some ds => some ds
      | none => if c = '/' then digitsThenQmark rest else none

/-- The group of the leftmost match of the full pattern: start positions are
tried left to right; a match at a start position needs one leading
non-newline character, then the greedy slash choice of lastSlash. -/
def reFirstGroup : List Char → Option (List Char)
  | [] => none
  | c :: rest =>
    match (if c = '\n' then none else lastSlash rest) with
    | some ds => some ds
    | none => reFirstGroup rest

/-- A completed HTTP exchange as the module observes it: the status code and
the parse outcome of the response text. -/
structure HttpResponse where
  status_code : Nat
  body : Option Json

/-- Error conditions: the two module.fail_json sites of error_handling, the
manual failure trigger, and the uncaught Python exceptions a step can
raise.  malformedResponseError is the IndexError on new_version[0] when
findall returned no match; ruleDocumentNotFoundError is the
FileNotFoundError from opening the rule-tree file. -/
inductive ErrKind where
  | apiTransportError
  | resourceNotFoundError
  | malformedResponseError
  | ruleDocumentNotFoundError
  | jsonParseError
  | keyError
  | typeError
  | indexError
  | manualFailure
deriving DecidableEq

/-- Observable actions of a run: the outbound API calls (with the request
data that reaches the wire) and the sleeps of the activation poll loop. -/
inductive Event where
  | search (propertyName : String)
  | createVersion (propertyId : Json) (createFromVersion : Json)
  | updateRules (propertyId : Json) (version : String) (body : Json)
  | createActivation (propertyId : Json) (body : Json)
  | fetchStatus (link : String)
  | sleep (seconds : Nat)

/-- The global result dictionary seeded in run_module and mutated by the
steps.  current_version and propertyId hold whatever JSON values the
search response carried; new_version holds the string captured by the
regex group. -/
structure RunResult where
  changed : Bool
  failed : Bool
  propertyId : Json
  current_version : Json
  new_version : String
  api_search_response : Option Json
  api_creation_response : Option Json
  api_activation_response : Option Json

/-- The seed value of the result dictionary (run_module lines 121-127). -/
def initial_result : RunResult :=
  { changed := false
    failed := false
    propertyId := .str ""
    current_version := .str ""
    new_version := ""
    api_search_response := none
    api_creation_response := none
    api_activation_response := none }

/-- The declarative module parameters (argument_spec of run_module). -/
structure ModuleParams where
  name : String
  version_notes : String
  activate_staging : Bool
  activate_production : Bool

/-- The environment a run consumes: one response per non-polled endpoint,
the activation response per network, the status-fetch response per
activation link and poll attempt, and the file system keyed by path
(none = file missing, some none = file text that is not valid JSON). -/
structure Env where
  searchResponse : HttpResponse
  createResponse : HttpResponse
  updateResponse : HttpResponse
  activationResponse : String → HttpResponse
  statusResponse : String → Nat → HttpResponse
  files : String → Option (Option Json)

/-- The accepted HTTP status codes of error_handling (line 175). -/
def acceptedStatus (n : Nat) : Prop := n = 200 ∨ n = 201 ∨ n = 204

instance (n : Nat) : Decidable (acceptedStatus n) := by
  unfold acceptedStatus
  infer_instance

/-- error_handling (lines 174-180): fail on a status code outside
{200, 201, 204} regardless of body; for the search action re-parse the
body and fail when versions.items is falsy.  Raising is modelled by the
returned error kind; the function touches no state. -/
def error_handling (response : HttpResponse) (action : String) : Option ErrKind :=
  if acceptedStatus response.status_code then
    if action = "search" then
      match response.body with
      | none => some .jsonParseError
      | some j =>
        match j.getKey "versions" with
        | none => some .keyError
        | some v =>
          match v.getKey "items" with
          | none => some .keyError
          | some items => if items.isFalsy then some .resourceNotFoundError else none
    else none
  else some .apiTransportError

/-- The scan loop of search_property (lines 195-198): every item whose
productionStatus equals ACTIVE overwrites current_version and then
propertyId; the loop never stops early.  A missing key raises. -/
def scan_items : List Json → RunResult → RunResult × Option ErrKind
  | [], r => (r, none)
  | item :: rest, r =>
    match item.getKey "productionStatus" with
    | none => (r, some .keyError)
    | some st =>
      if st.eqStr "ACTIVE" then
        match item.getKey "propertyVersion" with
        | none => (r, some .keyError)
        | some pv =>
          match item.getKey "propertyId" with
          | none => ({ r with current_version := pv }, some .keyError)
          | some pid => scan_items rest { r with current_version := pv, propertyId := pid }
      else scan_items rest r

/-- search_property (lines 183-199): POST the name search, parse the body,
record it, run error_handling with action search, then scan the items. -/
def search_property (env : Env) (property_name : String) (r : RunResult) :
    RunResult × List Event × Option ErrKind :=
  let call := Event.search property_name
  let response := env.searchResponse
  match response.body with
  | none => (r, [call], some .jsonParseError)
  | some j =>
    let r1 := { r with api_search_response := some j }
    match error_handling response "search" with
    | some e => (r1, [call], some e)
    | none =>
      match j.getKey "versions" with
      | none => (r1, [call], some .keyError)
      | some vs =>
        match vs.getKey "items" with
        | none => (r1, [call], some .keyError)
        | some items =>
          match items with
          | .arr l => ((scan_items l r1).1, [call], (scan_items l r1).2)
          | _ => (r1, [call], some .typeError)

/-- create_new_property_version (lines 202-217): POST createFromVersion,
parse and record the body, run error_handling with action create, extract
the new version number from the versionLink locator with the regex, and
flip the changed flag.  An absent regex match is the IndexError on
new_version[0], modelled as malformedResponseError. -/
def create_new_property_version (env : Env) (property_id : Json) (version : Json)
    (r : RunResult) : RunResult × List Event × Option ErrKind :=
  let call := Event.createVersion property_id version
  let response := env.createResponse
  match response.body with
  | none => (r, [call], some .jsonParseError)
  | some j =>
    let r1 := { r with api_creation_response := some j }
    match error_handling response "create" with
    | some e => (r1, [call], some e)
    | none =>
      match j.getKey "versionLink" with
      | none => (r1, [call], some .keyError)
      | some link =>
        match link with
        | .str s =>
          match reFirstGroup s.data with
          | none => (r1, [call], some .malformedResponseError)
          | some ds =>
            ({ r1 with new_version := String.mk ds, changed := true }, [call], none)
        | _ => (r1, [call], some .typeError)

/-- The rule-tree file path derived from the property name (line 223). -/
def rulePath (property_name : String) : String :=
  "./ruletree/" ++ property_name ++ ".ruletree.json"

/-- update_property (lines 220-235): open and parse the rule-tree file keyed
by the property name, inject the version notes as the top-level comments
field, PUT the document as the full rule set of the new version, parse the
response (which is deliberately not recorded in the result), and run
error_handling with action update.  A missing file is the
FileNotFoundError, modelled as ruleDocumentNotFoundError. -/
def update_property (env : Env) (property_name : String) (property_id : Json)
    (new_version : String) (notes : String) (r : RunResult) :
    RunResult × List Event × Option ErrKind :=
  match env.files (rulePath property_name) with
  | none => (r, [], some .ruleDocumentNotFoundError)
  | some none => (r, [], some .jsonParseError)
  | some (some doc) =>
    match doc.setKey "comments" (.str notes) with
    | none => (r, [], some .typeError)
    | some body =>
      let call := Event.updateRules property_id new_version body
      let response := env.updateResponse
      match response.body with
      | none => (r, [call], some .jsonParseError)
      | some _ =>
        match error_handling response "update" with
        | some e => (r, [call], some e)
        | none => (r, [call], none)

/-- The activation request body (lines 240-246): propertyVersion is read
from the new_version field of the global result dictionary. -/
def activationBody (network : String) (newVersion : String) (notes : String) : Json :=
  .obj [("acknowledgeAllWarnings", .str "true"),
        ("network", .str network),
        ("notifyEmails", .arr [.str "noreply@example.com"]),
        ("propertyVersion", .str newVersion),
        ("note", .str notes)]

/-- The subscript chain of the poll loop (line 258):
activations, items, element 0, status. -/
def firstItemStatus (j : Json) : Except ErrKind Json :=
  match j.getKey "activations" with
  | none => .error .keyError
  | some a =>
    match a.getKey "items" with
    | none => .error .keyError
    | some items =>
      match items with
      | .arr [] => .error .indexError
      | .arr (x :: _) =>
        match x.getKey "status" with
        | none => .error .keyError
        | some s => .ok s
      | _ => .error .typeError

/-- Outcome of an activation call: returned, raised, or never terminated
(out of fuel: no fuel value makes the loop return). -/
inductive ActOutcome where
  | ok
  | err (e : ErrKind)
  | hung
deriving DecidableEq

/-- The while-True poll loop of activate_property (lines 255-260): GET the
status locator, parse, inspect the first item's status; break when it
equals ACTIVE, otherwise sleep 10 and fetch again.  fuel bounds the
number of iterations the model unfolds; running out of fuel models a loop
that has not terminated. -/
def poll (resp : Nat → HttpResponse) (link : String) (i : Nat) (fuel : Nat) :
    List Event × ActOutcome :=
  match fuel with
  | 0 => ([], .hung)
  | fuel' + 1 =>
    let ev := Event.fetchStatus link
    match (resp i).body with
    | none => ([ev], .err .jsonParseError)
    | some j =>
      match firstItemStatus j with
      | .error e => ([ev], .err e)
      | .ok st =>
        if st.eqStr "ACTIVE" then ([ev], .ok)
        else
          (ev :: Event.sleep 10 :: (poll resp link (i + 1) fuel').1,
           (poll resp link (i + 1) fuel').2)

/-- The event list of a successful poll that saw the ACTIVE status on fetch
number k + 1: k + 1 fetches with exactly one sleep of 10 between each. -/
def pollTrace (link : String) : Nat → List Event
  | 0 => [Event.fetchStatus link]
  | k + 1 => Event.fetchStatus link :: Event.sleep 10 :: pollTrace link k

/-- activate_property (lines 238-261): POST the activation body, parse and
record the response, run error_handling with action activate, read the
activationLink locator and enter the poll loop. -/
def activate_property (env : Env) (notes : String) (property_id : Json)
    (network : String) (r : RunResult) (fuel : Nat) :
    RunResult × List Event × ActOutcome :=
  let body := activationBody network r.new_version notes
  let call := Event.createActivation property_id body
  let response := env.activationResponse network
  match response.body with
  | none => (r, [call], .err .jsonParseError)
  | some j =>
    let r1 := { r with api_activation_response := some j }
    match error_handling response "activate" with
    | some e => (r1, [call], .err e)
    | none =>
      match j.getKey "activationLink" with
      | none => (r1, [call], .err .keyError)
      | some link =>
        match link with
        | .str l =>
          (r1, call :: (poll (env.statusResponse l) l 0 fuel).1,
           (poll (env.statusResponse l) l 0 fuel).2)
        | _ => (r1, [call], .err .typeError)

/-- Outcome of a whole run: exit_json with the final result, fail_json or an
uncaught exception with the result populated so far, or a poll loop that
never terminated. -/
inductive RunOutcome where
  | exited (r : RunResult)
  | failed (e : ErrKind) (r : RunResult)
  | hung (r : RunResult)

/-- The tail of run_module (lines 166-171): the manual failure trigger for
the property name "fail me", otherwise exit_json. -/
def finish (p : ModuleParams) (r : RunResult) : RunOutcome :=
  if p.name = "fail me" then .failed .manualFailure r else .exited r

/-- The production branch of run_module (lines 155-156): activate on
PRODUCTION when requested, then the module tail. -/
def run_production (env : Env) (p : ModuleParams) (r : RunResult) (fuel : Nat) :
    RunOutcome × List Event :=
  if p.activate_production then
    match activate_property env p.version_notes r.propertyId "PRODUCTION" r fuel with
    | (r1, t, .ok) => (finish p r1, t)
    | (r1, t, .err e) => (.failed e r1, t)
    | (r1, t, .hung) => (.hung r1, t)
  else (finish p r, [])

/-- The activation phase of run_module (lines 153-156): activate on STAGING
when requested and, only once that call has returned (the poll loop saw
ACTIVE), continue with the production branch. -/
def run_activations (env : Env) (p : ModuleParams) (r : RunResult) (fuel : Nat) :
    RunOutcome × List Event :=
  if p.activate_staging then
    match activate_property env p.version_notes r.propertyId "STAGING" r fuel with
    | (r1, t, .ok) =>
      ((run_production env p r1 fuel).1, t ++ (run_production env p r1 fuel).2)
    | (r1, t, .err e) => (.failed e r1, t)
    | (r1, t, .hung) => (.hung r1, t)
  else run_production env p r fuel

/-- run_module (lines 106-171): seed the result, short-circuit in check
mode, then the fixed sequence search, create (seeded with the discovered
propertyId and current_version), update (on the forked version), and the
activation phase.  The first error anywhere stops the sequence with the
result populated so far. -/
def run_module (env : Env) (p : ModuleParams) (check_mode : Bool) (fuel : Nat) :
    RunOutcome × List Event :=
  if check_mode then (.exited initial_result, [])
  else
    match search_property env p.name initial_result with
    | (r1, t1, some e) => (.failed e r1, t1)
    | (r1, t1, none) =>
      match create_new_property_version env r1.propertyId r1.current_version r1 with
      | (r2, t2, some e) => (.failed e r2, t1 ++ t2)
      | (r2, t2, none) =>
        match update_property env p.name r2.propertyId r2.new_version p.version_notes r2 with
        | (r3, t3, some e) => (.failed e r3, t1 ++ t2 ++ t3)
        | (r3, t3, none) =>
          ((run_activations env p r3 fuel).1,
           t1 ++ t2 ++ t3 ++ (run_activations env p r3 fuel).2)

/-- The version number the fork step of a run extracts, as a function of the
environment alone: the regex group of the versionLink of the creation
response. -/
def forkedVersion (env : Env) : Option String :=
  match env.createResponse.body with
  | none => none
  | some j =>
    match j.getKey "versionLink" with
    | some (.str s) => (reFirstGroup s.data).map String.mk
    | _ => none

/-- A well-formed activation status response whose single item carries the
given status string. -/
def statusResponseOf (s : String) : HttpResponse :=
  ⟨200, some (.obj [("activations", .obj [("items", .arr [.obj [("status", .str s)]])])])⟩

/-!
Concrete fixtures: a control plane with one production-active version 5 of
property prp_1, a creation response forking version 6, and a rule-tree
file for the property named demo.  Variants override one response each.
-/

/-- A search item that is production-active on version 5 of prp_1. -/
def itemActive1 : Json :=
  .obj [("productionStatus", .str "ACTIVE"),
        ("propertyVersion", .num 5),
        ("propertyId", .str "prp_1")]

/-- A search response body with a single production-active item. -/
def searchBodyOk : Json := .obj [("versions", .obj [("items", .arr [itemActive1])])]

/-- A well-shaped version locator ending in the new version 6 and a query. -/
def createLinkOk : String := "/papi/v1/properties/prp_1/versions/6?contractId=ctr_1"

/-- A creation response body carrying the version locator. -/
def createBodyOk : Json := .obj [("versionLink", .str createLinkOk)]

/-- The status locator returned by the activation request. -/
def activationLinkOk : String := "/papi/v1/properties/prp_1/activations/atv_1"

/-- An activation response body carrying the status locator. -/
def activationRespBody : Json := .obj [("activationLink", .str activationLinkOk)]

/-- A rule-tree document for the demo property. -/
def ruleDocOk : Json := .obj [("rules", .obj [])]

/-- A file system holding exactly the rule-tree file of the demo property. -/
def demoFiles : String → Option (Option Json) :=
  fun path => if path = rulePath "demo" then some (some ruleDocOk) else none

/-- The all-successful environment: every call accepted, the first status
fetch already reports ACTIVE. -/
def envOk : Env :=
  { searchResponse := ⟨200, some searchBodyOk⟩
    createResponse := ⟨201, some createBodyOk⟩
    updateResponse := ⟨200, some (.obj [])⟩
    activationResponse := fun _ => ⟨201, some activationRespBody⟩
    statusResponse := fun _ _ => statusResponseOf "ACTIVE"
    files := demoFiles }

/-- Parameters requesting a staging activation only. -/
def paramsDemo : ModuleParams := ⟨"demo", "n", true, false⟩

/-- Parameters requesting both activations. -/
def paramsBoth : ModuleParams := ⟨"demo", "n", true, true⟩

/-- Parameters requesting no activation. -/
def paramsNone : ModuleParams := ⟨"demo", "n", false, false⟩

/-- Parameters requesting a production activation only. -/
def paramsProdOnly : ModuleParams := ⟨"demo", "n", false, true⟩

/-- Environment whose search call is rejected by the API. -/
def envSearchFail : Env := { envOk with searchResponse := ⟨500, some (.obj [])⟩ }

/-- Environment whose creation response has a locator without the pattern. -/
def envCreateMalformed : Env :=
  { envOk with createResponse := ⟨201, some (.obj [("versionLink", .str "nope")])⟩ }

/-- Environment whose rule update call is rejected by the API. -/
def envUpdateFail : Env := { envOk with updateResponse := ⟨500, some (.obj [])⟩ }

/-- Environment whose activation requests are rejected by the API. -/
def envActivateFail : Env :=
  { envOk with activationResponse := fun _ => ⟨500, some (.obj [])⟩ }

/-- Environment whose responses are all rejections with unparseable text. -/
def envBadJson : Env :=
  { envOk with
    searchResponse := ⟨500, none⟩
    createResponse := ⟨500, none⟩
    updateResponse := ⟨500, none⟩
    activationResponse := fun _ => ⟨500, none⟩ }

/-- The result dictionary after the search step of the envOk run. -/
def r1v : RunResult :=
  { initial_result with
    api_search_response := some searchBodyOk
    current_version := .num 5
    propertyId := .str "prp_1" }

/-- The result dictionary after the fork step of the envOk run (the update
step leaves the dictionary untouched). -/
def r2v : RunResult :=
  { r1v with
    api_creation_response := some createBodyOk
    new_version := "6"
    changed := true }

/-- An item whose production status is present but not ACTIVE. -/
def itemInactive (j : Json) : Prop :=
  ∃ s, j.getKey "productionStatus" = some s ∧ s.eqStr "ACTIVE" = false

/-- An item the scan loop can process without raising: the status key is
present and, when it is ACTIVE, so are the version and id keys. -/
def itemWellFormed (j : Json) : Prop :=
  ∃ s, j.getKey "productionStatus" = some s ∧
    (s.eqStr "ACTIVE" = true →
      (∃ pv, j.getKey "propertyVersion" = some pv) ∧
      (∃ pid, j.getKey "propertyId" = some pid))

/-- A search response body whose version item list is empty. -/
def searchBodyEmpty : Json := .obj [("versions", .obj [("items", .arr [])])]

/-- A search item that is present but not production-active. -/
def itemNotActive1 : Json :=
  .obj [("productionStatus", .str "INACTIVE"),
        ("propertyVersion", .num 7),
        ("propertyId", .str "prp_2")]

/-- A search response body with one non-active item only. -/
def searchBodyNoActive : Json := .obj [("versions", .obj [("items", .arr [itemNotActive1])])]

/-- Environment whose search yields an empty version list. -/
def envSearchEmpty : Env := { envOk with searchResponse := ⟨200, some searchBodyEmpty⟩ }

/-- Environment whose search yields only a non-active version. -/
def envNoActive : Env := { envOk with searchResponse := ⟨200, some searchBodyNoActive⟩ }

/-- Status fetch sequence PENDING, PENDING, ACTIVE. -/
def respPPA : Nat → HttpResponse :=
  fun n => statusResponseOf (if n < 2 then "PENDING" else "ACTIVE")

/-- Status fetch sequence that reports PENDING forever. -/
def respPending : Nat → HttpResponse := fun _ => statusResponseOf "PENDING"

/-! ### Lemmas about the versionLink pattern model -/

/-- On a list of digits followed by a question mark, takeWhile keeps exactly
the digits and dropWhile exposes the question mark. -/
theorem takeWhile_digits_append (d rest : List Char) (hd : d.all Char.isDigit = true) :
    List.takeWhile Char.isDigit (d ++ '?' :: rest) = d ∧
    List.dropWhile Char.isDigit (d ++ '?' :: rest) = '?' :: rest := by
  induction d with
  | nil =>
    constructor
    · simp [List.takeWhile_cons]
    · simp [List.dropWhile_cons]
  | cons c cs ih =>
    simp only [List.all_cons, Bool.and_eq_true] at hd
    obtain ⟨h1, h2⟩ := ih hd.2
    constructor
    · simp [List.takeWhile_cons, hd.1, h1]
    · simp [List.dropWhile_cons, hd.1, h2]

/-- The tail pattern matches a nonempty digit group, a question mark and at
least one further non-newline character. -/
theorem digitsThenQmark_of_shape (d : List Char) (c : Char) (t : List Char)
    (hd : d.all Char.isDigit = true) (hne : d ≠ []) (hc : c ≠ '\n') :
    digitsThenQmark (d ++ '?' :: c :: t) = some d := by
  obtain ⟨h1, h2⟩ := takeWhile_digits_append d (c :: t) hd
  simp [digitsThenQmark, h1, h2, List.isEmpty_iff, hne, hc]

/-- A successful tail match pins down the shape of the input list. -/
theorem digitsThenQmark_complete (l ds : List Char) (h : digitsThenQmark l = some ds) :
    ds ≠ [] ∧ ds.all Char.isDigit = true ∧ ∃ b, l = ds ++ '?' :: b ∧ b ≠ [] := by
  simp only [digitsThenQmark] at h
  split at h
  case h_1 c rest heq =>
    split at h
    case isTrue => exact absurd h (by simp)
    case isFalse hcond =>
      have hds : List.takeWhile Char.isDigit l = ds := by
        simpa using h
      have hne : ds ≠ [] := by
        intro hnil
        exact hcond (Or.inl (by rw [hds, hnil] ; rfl))
      refine ⟨hne, ?_, c :: rest, ?_, by simp⟩
      · rw [List.all_eq_true]
        intro x hx
        exact List.mem_takeWhile_imp (hds ▸ hx)
      · rw [← hds, ← heq, List.takeWhile_append_dropWhile]
  case h_2 => exact absurd h (by simp)

/-- A successful tail match requires a question mark in the input. -/
theorem digitsThenQmark_mem_qmark (l ds : List Char) (h : digitsThenQmark l = some ds) :
    '?' ∈ l := by
  obtain ⟨-, -, b, rfl, -⟩ := digitsThenQmark_complete l ds h
  simp

/-- Without a question mark anywhere, the tail pattern never matches. -/
theorem digitsThenQmark_none_of_no_qmark (l : List Char) (h : '?' ∉ l) :
    digitsThenQmark l = none := by
  cases heq : digitsThenQmark l with
  | none => rfl
  | some ds => exact absurd (digitsThenQmark_mem_qmark l ds heq) h

/-- Without a question mark anywhere, no slash position is viable. -/
theorem lastSlash_none_of_no_qmark (l : List Char) (h : '?' ∉ l) :
    lastSlash l = none := by
  induction l with
  | nil => rfl
  | cons c rest ih =>
    have hrest : '?' ∉ rest := fun hm => h (List.mem_cons_of_mem c hm)
    by_cases hc : c = '\n'
    · simp [lastSlash, hc]
    · simp only [lastSlash, hc, if_neg hc, ih hrest]
      by_cases hs : c = '/'
      · simp [hs, digitsThenQmark_none_of_no_qmark rest hrest]
      · simp [hs]

/-- A digit is neither a slash, a newline nor a question mark. -/
theorem isDigit_ne (c : Char) (h : c.isDigit = true) :
    c ≠ '/' ∧ c ≠ '\n' ∧ c ≠ '?' := by
  refine ⟨?_, ?_, ?_⟩ <;> (intro hc; subst hc; exact absurd h (by decide))

/-- Past the digit group of the separator, no further slash is viable when
the query part carries no question mark. -/
theorem lastSlash_digits_qmark_none (d b : List Char)
    (hd : d.all Char.isDigit = true) (hb : '?' ∉ b) :
    lastSlash (d ++ '?' :: b) = none := by
  induction d with
  | nil =>
    have : lastSlash b = none := lastSlash_none_of_no_qmark b hb
    simp [lastSlash, this]
  | cons c cs ih =>
    simp only [List.all_cons, Bool.and_eq_true] at hd
    obtain ⟨hne1, hne2, -⟩ := isDigit_ne c hd.1
    simp [lastSlash, hne1, hne2, ih hd.2]

/-- The separator slash is the rightmost viable one: the greedy scan returns
its digit group. -/
theorem lastSlash_of_decomp (xs d : List Char) (c : Char) (t : List Char)
    (hxs : ∀ x ∈ xs, x ≠ '\n') (hd : d.all Char.isDigit = true) (hne : d ≠ [])
    (hc : c ≠ '\n') (hq : '?' ∉ c :: t) :
    lastSlash (xs ++ '/' :: (d ++ '?' :: c :: t)) = some d := by
  induction xs with
  | nil =>
    have h1 : lastSlash (d ++ '?' :: c :: t) = none :=
      lastSlash_digits_qmark_none d (c :: t) hd hq
    have h2 : digitsThenQmark (d ++ '?' :: c :: t) = some d :=
      digitsThenQmark_of_shape d c t hd hne hc
    simp [lastSlash, h1, h2]
  | cons x xs ih =>
    have hx : x ≠ '\n' := hxs x (List.mem_cons_self x xs)
    have hxs' : ∀ y ∈ xs, y ≠ '\n' := fun y hy => hxs y (List.mem_cons_of_mem x hy)
    simp [lastSlash, hx, ih hxs']

/-- Soundness of the first-match model: on a locator that decomposes as
nonempty prefix, slash, nonempty digit group, question mark, nonempty
query (no newline anywhere, no second question mark in the query), the
leftmost match captures exactly that digit group. -/
theorem reFirstGroup_of_decomp (a d b : List Char)
    (ha : a ≠ []) (hd : d.all Char.isDigit = true) (hdne : d ≠ []) (hb : b ≠ [])
    (hnl : ∀ x ∈ a ++ '/' :: (d ++ '?' :: b), x ≠ '\n') (hq : '?' ∉ b) :
    reFirstGroup (a ++ '/' :: (d ++ '?' :: b)) = some d := by
  cases a with
  | nil => exact absurd rfl ha
  | cons c a' =>
    cases b with
    | nil => exact absurd rfl hb
    | cons cb tb =>
      have hc : c ≠ '\n' := hnl c (by simp)
      have hcb : cb ≠ '\n' := hnl cb (by simp)
      have ha' : ∀ x ∈ a', x ≠ '\n' := fun x hx => hnl x (by simp [hx])
      have hls : lastSlash (a' ++ '/' :: (d ++ '?' :: cb :: tb)) = some d :=
        lastSlash_of_decomp a' d cb tb ha' hd hdne hcb
          (fun hm => hq (by simpa using hm))
      simp [reFirstGroup, hc, hls]

/-- Completeness of the greedy slash scan: a returned group comes from an
actual slash, digit group, question mark decomposition. -/
theorem lastSlash_complete (l ds : List Char) (h : lastSlash l = some ds) :
    ∃ xs b, l = xs ++ '/' :: (ds ++ '?' :: b) ∧ ds ≠ [] ∧
      ds.all Char.isDigit = true ∧ b ≠ [] := by
  induction l with
  | nil => exact absurd h (by simp [lastSlash])
  | cons c rest ih =>
    simp only [lastSlash] at h
    split at h
    · exact absurd h (by simp)
    · revert h
      split
      case h_1 ds' heq =>
        intro h
        obtain rfl : ds' = ds := by simpa using h
        obtain ⟨xs, b, rfl, h1, h2, h3⟩ := ih heq
        exact ⟨c :: xs, b, rfl, h1, h2, h3⟩
      case h_2 heq =>
        intro h
        by_cases hs : c = '/'
        · rw [if_pos hs] at h
          obtain ⟨h1, h2, b, rfl, h3⟩ := digitsThenQmark_complete rest ds h
          exact ⟨[], b, by simp [hs], h1, h2, h3⟩
        · rw [if_neg hs] at h
          exact absurd h (by simp)

/-- Completeness of the first-match model: a returned group comes from an
actual prefix, slash, digit group, question mark decomposition. -/
theorem reFirstGroup_complete (l ds : List Char) (h : reFirstGroup l = some ds) :
    ∃ a b, l = a ++ '/' :: (ds ++ '?' :: b) ∧ a ≠ [] ∧ ds ≠ [] ∧
      ds.all Char.isDigit = true ∧ b ≠ [] := by
  induction l with
  | nil => exact absurd h (by simp [reFirstGroup])
  | cons c rest ih =>
    simp only [reFirstGroup] at h
    revert h
    split
    case h_1 ds' heq =>
      intro h
      obtain rfl : ds' = ds := by simpa using h
      by_cases hc : c = '\n'
      · rw [if_pos hc] at heq
        exact absurd heq (by simp)
      · rw [if_neg hc] at heq
        obtain ⟨xs, b, rfl, h1, h2, h3⟩ := lastSlash_complete rest ds' heq
        exact ⟨c :: xs, b, rfl, by simp, h1, h2, h3⟩
    case h_2 heq =>
      intro h
      obtain ⟨a, b, rfl, h1, h2, h3, h4⟩ := ih h
      exact ⟨c :: a, b, rfl, by simp, h2, h3, h4⟩

/-! ### Lemmas about the search scan loop -/

/-- The scan loop walks past inactive items without touching the result. -/
theorem scan_items_inactive (l : List Json) :
    ∀ r : RunResult, (∀ x ∈ l, itemInactive x) → scan_items l r = (r, none) := by
  induction l with
  | nil => intro r _ ; rfl
  | cons x rest ih =>
    intro r h
    obtain ⟨s, hs, hne⟩ := h x (by simp)
    simp [scan_items, hs, hne, ih r (fun y hy => h y (by simp [hy]))]

/-- The scan loop never raises the not-found failure; that failure belongs
to error_handling alone. -/
theorem scan_items_no_rnfe (l : List Json) :
    ∀ r : RunResult, (scan_items l r).2 ≠ some ErrKind.resourceNotFoundError := by
  induction l with
  | nil => intro r ; simp [scan_items]
  | cons x rest ih =>
    intro r
    simp only [scan_items]
    cases hg : x.getKey "productionStatus" with
    | none => simp
    | some st =>
      by_cases hact : st.eqStr "ACTIVE" = true
      · simp only [hact, if_true]
        cases hpv : x.getKey "propertyVersion" with
        | none => simp
        | some pv =>
          cases hpid : x.getKey "propertyId" with
          | none => simp
          | some pid => exact ih _
      · simp only [Bool.not_eq_true] at hact
        simp only [hact, Bool.false_eq_true, if_false]
        exact ih _

/-- The scan loop only ever writes the current_version and propertyId
fields; every other field of the result dictionary is preserved. -/
theorem scan_items_preserves (l : List Json) :
    ∀ r : RunResult, (scan_items l r).1.changed = r.changed ∧
      (scan_items l r).1.failed = r.failed ∧
      (scan_items l r).1.new_version = r.new_version ∧
      (scan_items l r).1.api_search_response = r.api_search_response ∧
      (scan_items l r).1.api_creation_response = r.api_creation_response ∧
      (scan_items l r).1.api_activation_response = r.api_activation_response := by
  induction l with
  | nil => intro r ; simp [scan_items]
  | cons x rest ih =>
    intro r
    simp only [scan_items]
    cases hg : x.getKey "productionStatus" with
    | none => simp
    | some st =>
      by_cases hact : st.eqStr "ACTIVE" = true
      · simp only [hact, if_true]
        cases hpv : x.getKey "propertyVersion" with
        | none => simp
        | some pv =>
          cases hpid : x.getKey "propertyId" with
          | none => simp
          | some pid => exact ih _
      · simp only [Bool.not_eq_true] at hact
        simp only [hact, Bool.false_eq_true, if_false]
        exact ih _

/-- The scan loop never stops early: the last production-active item in
API order determines the recorded version and id, whatever matches came
before it. -/
theorem scan_items_last_active (l1 : List Json) (item : Json) (l2 : List Json)
    (st pv pid : Json)
    (hst : item.getKey "productionStatus" = some st)
    (hact : st.eqStr "ACTIVE" = true)
    (hpv : item.getKey "propertyVersion" = some pv)
    (hpid : item.getKey "propertyId" = some pid)
    (hl2 : ∀ x ∈ l2, itemInactive x) :
    ∀ r : RunResult, (∀ x ∈ l1, itemWellFormed x) →
      scan_items (l1 ++ item :: l2) r =
        ({ r with current_version := pv, propertyId := pid }, none) := by
  induction l1 with
  | nil =>
    intro r _
    simp only [List.nil_append, scan_items, hst, hact, if_true, hpv, hpid]
    exact scan_items_inactive l2 _ hl2
  | cons x rest ih =>
    intro r hwf
    obtain ⟨s, hs, himp⟩ := hwf x (by simp)
    have hrest : ∀ y ∈ rest, itemWellFormed y := fun y hy => hwf y (by simp [hy])
    by_cases hsact : s.eqStr "ACTIVE" = true
    · obtain ⟨⟨pv', hpv'⟩, ⟨pid', hpid'⟩⟩ := himp hsact
      simp only [List.cons_append, scan_items, hs, hsact, if_true, hpv', hpid']
      exact ih _ hrest
    · simp only [Bool.not_eq_true] at hsact
      simp only [List.cons_append, scan_items, hs, hsact, Bool.false_eq_true, if_false]
      exact ih _ hrest

/-! ### Step-level helper lemmas -/

/-- The search step performs exactly one outbound call. -/
theorem search_property_trace (env : Env) (n : String) (r : RunResult) :
    (search_property env n r).2.1 = [Event.search n] := by
  unfold search_property
  dsimp only
  repeat' split
  all_goals rfl

/-- The fork step performs exactly one outbound call, seeded with the
propertyId and source version it was given. -/
theorem create_version_trace (env : Env) (pid v : Json) (r : RunResult) :
    (create_new_property_version env pid v r).2.1 = [Event.createVersion pid v] := by
  unfold create_new_property_version
  dsimp only
  repeat' split
  all_goals rfl

/-- The update step writes nothing into the result dictionary, succeed or
fail: in particular no raw update response is recorded. -/
theorem update_property_state (env : Env) (n : String) (pid : Json) (nv notes : String)
    (r : RunResult) : (update_property env n pid nv notes r).1 = r := by
  unfold update_property
  dsimp only
  repeat' split
  all_goals rfl

/-- Any call performed by the update step is the single rule-tree PUT. -/
theorem update_property_trace_mem (env : Env) (n : String) (pid : Json)
    (nv notes : String) (r : RunResult) (ev : Event)
    (h : ev ∈ (update_property env n pid nv notes r).2.1) :
    ∃ b, ev = Event.updateRules pid nv b := by
  revert h
  unfold update_property
  dsimp only
  repeat' split
  all_goals intro h
  all_goals simp only [List.not_mem_nil, List.mem_singleton] at h
  all_goals exact ⟨_, h⟩

/-- The search step never writes the changed flag. -/
theorem search_property_changed (env : Env) (n : String) (r : RunResult) :
    ((search_property env n r).1).changed = r.changed := by
  unfold search_property
  dsimp only
  repeat' split
  all_goals first
    | rfl
    | exact (scan_items_preserves _ _).1

/-- A failing fork step never writes the changed flag. -/
theorem create_version_err_changed (env : Env) (pid v : Json) (r r' : RunResult)
    (t : List Event) (e : ErrKind)
    (h : create_new_property_version env pid v r = (r', t, some e)) :
    r'.changed = r.changed := by
  revert h
  unfold create_new_property_version
  dsimp only
  repeat' split
  all_goals intro h
  all_goals simp only [Prod.mk.injEq] at h
  all_goals obtain ⟨h1, -, h3⟩ := h
  all_goals try simp at h3
  all_goals (rw [← h1])

/-- The activation step touches only the api_activation_response field of
the result dictionary. -/
theorem activate_property_state (env : Env) (notes : String) (pid : Json)
    (net : String) (r : RunResult) (fuel : Nat) :
    ((activate_property env notes pid net r fuel).1).changed = r.changed ∧
    ((activate_property env notes pid net r fuel).1).new_version = r.new_version ∧
    ((activate_property env notes pid net r fuel).1).propertyId = r.propertyId := by
  unfold activate_property
  dsimp only
  repeat' split
  all_goals exact ⟨rfl, rfl, rfl⟩

/-- The poll loop only fetches and sleeps; it creates no activation. -/
theorem poll_no_activation (resp : Nat → HttpResponse) (link : String) :
    ∀ fuel i pid body, Event.createActivation pid body ∉ (poll resp link i fuel).1 := by
  intro fuel
  induction fuel with
  | zero => intro i pid body ; simp [poll]
  | succ fuel' ih =>
    intro i pid body
    unfold poll
    dsimp only
    repeat' split
    all_goals simp [List.mem_cons, ih (i + 1) pid body]

/-- The only activation request the activation step can emit carries the
body built from the current new_version of the result dictionary. -/
theorem activate_property_mem (env : Env) (notes : String) (apid : Json)
    (net : String) (r : RunResult) (fuel : Nat) (pid body : Json)
    (h : Event.createActivation pid body ∈ (activate_property env notes apid net r fuel).2.1) :
    pid = apid ∧ body = activationBody net r.new_version notes := by
  revert h
  unfold activate_property
  dsimp only
  repeat' split
  all_goals intro h
  all_goals simp only [List.mem_cons, List.not_mem_nil, or_false,
    Event.createActivation.injEq] at h
  all_goals first
    | exact h
    | (rcases h with h | h
       · exact h
       · exact absurd h (poll_no_activation _ _ _ _ _ _))

/-- A successful fork step records exactly the version number the regex
extracts from the creation response of the environment, and flips the
changed flag. -/
theorem create_version_success (env : Env) (pid v : Json) (r r' : RunResult)
    (t : List Event) (h : create_new_property_version env pid v r = (r', t, none)) :
    forkedVersion env = some r'.new_version ∧ r'.changed = true := by
  revert h
  unfold create_new_property_version forkedVersion
  dsimp only
  cases hb : env.createResponse.body with
  | none => intro h ; exact absurd h (by simp)
  | some j =>
    dsimp only
    cases he : error_handling env.createResponse "create" with
    | some e => intro h ; exact absurd h (by simp)
    | none =>
      dsimp only
      cases hk : j.getKey "versionLink" with
      | none => intro h ; exact absurd h (by simp)
      | some link =>
        dsimp only
        cases link with
        | str s =>
          dsimp only
          cases hre : reFirstGroup s.data with
          | none => intro h ; exact absurd h (by simp)
          | some ds =>
            dsimp only
            intro h
            simp only [Prod.mk.injEq] at h
            rw [← h.1]
            exact ⟨rfl, rfl⟩
        | null => intro h ; exact absurd h (by simp)
        | bool b => intro h ; exact absurd h (by simp)
        | num n => intro h ; exact absurd h (by simp)
        | arr a => intro h ; exact absurd h (by simp)
        | obj o => intro h ; exact absurd h (by simp)

/-! ### Poll loop behavior -/

/-- If the first k status fetches see a well-formed non-ACTIVE status and
fetch k + 1 sees ACTIVE, the loop does exactly k + 1 fetches with one
sleep of 10 between consecutive fetches, and returns successfully. -/
theorem poll_success (k : Nat) :
    ∀ (resp : Nat → HttpResponse) (link : String) (i fuel : Nat),
      (∀ n, n < k → ∃ j st, (resp (i + n)).body = some j ∧
        firstItemStatus j = .ok st ∧ st.eqStr "ACTIVE" = false) →
      (∃ j, (resp (i + k)).body = some j ∧ firstItemStatus j = .ok (.str "ACTIVE")) →
      k < fuel →
      poll resp link i fuel = (pollTrace link k, .ok) := by
  induction k with
  | zero =>
    intro resp link i fuel hpre hact hfuel
    obtain ⟨j, hj, hst⟩ := hact
    have hj' : (resp i).body = some j := by simpa using hj
    cases fuel with
    | zero => omega
    | succ fuel' => simp [poll, hj', hst, Json.eqStr, pollTrace]
  | succ k ih =>
    intro resp link i fuel hpre hact hfuel
    cases fuel with
    | zero => omega
    | succ fuel' =>
      obtain ⟨j, st, hj, hst, hne⟩ := hpre 0 (by omega)
      have hj' : (resp i).body = some j := by simpa using hj
      have hrec : poll resp link (i + 1) fuel' = (pollTrace link k, .ok) := by
        refine ih resp link (i + 1) fuel' ?_ ?_ (by omega)
        · intro n hn
          have h2 := hpre (n + 1) (by omega)
          rw [show i + 1 + n = i + (n + 1) by omega]
          exact h2
        · rw [show i + 1 + k = i + (k + 1) by omega]
          exact hact
      simp [poll, hj', hst, hne, hrec, pollTrace]

/-- If no status fetch ever sees ACTIVE, no amount of fuel makes the loop
return: it never terminates. -/
theorem poll_never_active (resp : Nat → HttpResponse) (link : String)
    (h : ∀ n, ∃ j st, (resp n).body = some j ∧ firstItemStatus j = .ok st ∧
      st.eqStr "ACTIVE" = false) :
    ∀ fuel i, (poll resp link i fuel).2 = .hung := by
  intro fuel
  induction fuel with
  | zero => intro i ; rfl
  | succ fuel' ih =>
    intro i
    obtain ⟨j, st, hj, hst, hne⟩ := h i
    simp [poll, hj, hst, hne, ih (i + 1)]

/-! ### Orchestrator branch lemmas -/

/-- A failing search aborts the run with the search trace and state. -/
theorem run_module_search_err (env : Env) (p : ModuleParams) (fuel : Nat)
    (r1 : RunResult) (t1 : List Event) (e : ErrKind)
    (h : search_property env p.name initial_result = (r1, t1, some e)) :
    run_module env p false fuel = (.failed e r1, t1) := by
  unfold run_module
  simp only [Bool.false_eq_true, if_false, h]

/-- A failing fork aborts the run; the fork was seeded with the discovered
propertyId and current_version. -/
theorem run_module_create_err (env : Env) (p : ModuleParams) (fuel : Nat)
    (r1 r2 : RunResult) (t1 t2 : List Event) (e : ErrKind)
    (hs : search_property env p.name initial_result = (r1, t1, none))
    (hc : create_new_property_version env r1.propertyId r1.current_version r1
      = (r2, t2, some e)) :
    run_module env p false fuel = (.failed e r2, t1 ++ t2) := by
  unfold run_module
  simp only [Bool.false_eq_true, if_false, hs, hc]

/-- A failing update aborts the run; the update was applied to the version
forked in this run. -/
theorem run_module_update_err (env : Env) (p : ModuleParams) (fuel : Nat)
    (r1 r2 r3 : RunResult) (t1 t2 t3 : List Event) (e : ErrKind)
    (hs : search_property env p.name initial_result = (r1, t1, none))
    (hc : create_new_property_version env r1.propertyId r1.current_version r1
      = (r2, t2, none))
    (hu : update_property env p.name r2.propertyId r2.new_version p.version_notes r2
      = (r3, t3, some e)) :
    run_module env p false fuel = (.failed e r3, t1 ++ t2 ++ t3) := by
  unfold run_module
  simp only [Bool.false_eq_true, if_false, hs, hc, hu]

/-- With search, fork and update successful, the run is the activation
phase appended to the three core calls. -/
theorem run_module_core_ok (env : Env) (p : ModuleParams) (fuel : Nat)
    (r1 r2 r3 : RunResult) (t1 t2 t3 : List Event)
    (hs : search_property env p.name initial_result = (r1, t1, none))
    (hc : create_new_property_version env r1.propertyId r1.current_version r1
      = (r2, t2, none))
    (hu : update_property env p.name r2.propertyId r2.new_version p.version_notes r2
      = (r3, t3, none)) :
    run_module env p false fuel =
      ((run_activations env p r3 fuel).1,
       t1 ++ t2 ++ t3 ++ (run_activations env p r3 fuel).2) := by
  unfold run_module
  simp only [Bool.false_eq_true, if_false, hs, hc, hu]

/-- A failing staging activation aborts the activation phase. -/
theorem run_activations_staging_err (env : Env) (p : ModuleParams) (r : RunResult)
    (fuel : Nat) (r' : RunResult) (t : List Event) (e : ErrKind)
    (hst : p.activate_staging = true)
    (h : activate_property env p.version_notes r.propertyId "STAGING" r fuel
      = (r', t, .err e)) :
    run_activations env p r fuel = (.failed e r', t) := by
  unfold run_activations
  simp only [hst, if_true, h]

/-- A staging activation that never reaches ACTIVE keeps the whole run in
the poll loop: nothing beyond its trace ever happens. -/
theorem run_activations_staging_hung (env : Env) (p : ModuleParams) (r : RunResult)
    (fuel : Nat) (r' : RunResult) (t : List Event)
    (hst : p.activate_staging = true)
    (h : activate_property env p.version_notes r.propertyId "STAGING" r fuel
      = (r', t, .hung)) :
    run_activations env p r fuel = (.hung r', t) := by
  unfold run_activations
  simp only [hst, if_true, h]

/-- Only after the staging activation has returned (its poll saw ACTIVE)
does the production branch run. -/
theorem run_activations_staging_ok (env : Env) (p : ModuleParams) (r : RunResult)
    (fuel : Nat) (r' : RunResult) (t : List Event)
    (hst : p.activate_staging = true)
    (h : activate_property env p.version_notes r.propertyId "STAGING" r fuel
      = (r', t, .ok)) :
    run_activations env p r fuel =
      ((run_production env p r' fuel).1, t ++ (run_production env p r' fuel).2) := by
  unfold run_activations
  simp only [hst, if_true, h]

/-- Without a staging request the activation phase is the production branch. -/
theorem run_activations_no_staging (env : Env) (p : ModuleParams) (r : RunResult)
    (fuel : Nat) (hst : p.activate_staging = false) :
    run_activations env p r fuel = run_production env p r fuel := by
  unfold run_activations
  simp only [hst, Bool.false_eq_true, if_false]

/-- Without a production request the production branch only runs the module
tail. -/
theorem run_production_not_requested (env : Env) (p : ModuleParams) (r : RunResult)
    (fuel : Nat) (hpr : p.activate_production = false) :
    run_production env p r fuel = (finish p r, []) := by
  unfold run_production
  simp only [hpr, Bool.false_eq_true, if_false]

/-- A requested production activation that returns ends the run through the
module tail. -/
theorem run_production_ok (env : Env) (p : ModuleParams) (r : RunResult)
    (fuel : Nat) (r' : RunResult) (t : List Event)
    (hpr : p.activate_production = true)
    (h : activate_property env p.version_notes r.propertyId "PRODUCTION" r fuel
      = (r', t, .ok)) :
    run_production env p r fuel = (finish p r', t) := by
  unfold run_production
  simp only [hpr, if_true, h]

/-- A requested production activation that fails aborts the run. -/
theorem run_production_err (env : Env) (p : ModuleParams) (r : RunResult)
    (fuel : Nat) (r' : RunResult) (t : List Event) (e : ErrKind)
    (hpr : p.activate_production = true)
    (h : activate_property env p.version_notes r.propertyId "PRODUCTION" r fuel
      = (r', t, .err e)) :
    run_production env p r fuel = (.failed e r', t) := by
  unfold run_production
  simp only [hpr, if_true, h]

/-- A requested production activation that never reaches ACTIVE keeps the
run in the poll loop. -/
theorem run_production_hung (env : Env) (p : ModuleParams) (r : RunResult)
    (fuel : Nat) (r' : RunResult) (t : List Event)
    (hpr : p.activate_production = true)
    (h : activate_property env p.version_notes r.propertyId "PRODUCTION" r fuel
      = (r', t, .hung)) :
    run_production env p r fuel = (.hung r', t) := by
  unfold run_production
  simp only [hpr, if_true, h]

/-- Replacing the comments key makes it the binding found by lookup. -/
theorem getKeyList_setKeyList (kvs : List (String × Json)) (k : String) (v : Json) :
    getKeyList (setKeyList kvs k v) k = some v := by
  induction kvs with
  | nil => simp [setKeyList, getKeyList]
  | cons kv rest ih =>
    obtain ⟨k', v'⟩ := kv
    by_cases hk : k' = k
    · simp [setKeyList, hk, getKeyList]
    · simp [setKeyList, hk, getKeyList, ih]

/-! ### Claim theorems -/

/-- Claim C7: with the check-mode flag set, the run makes zero outbound
calls (its event trace is empty) and returns a result equal to the
unmodified seeded record, for every environment, input set and fuel. -/
theorem c7_check_mode_short_circuit (env : Env) (p : ModuleParams) (fuel : Nat) :
    run_module env p true fuel = (.exited initial_result, []) := rfl

/-- Claim C5 (amended): the validator fails with apiTransportError exactly
when the status code is outside {200, 201, 204}, regardless of body; for
the search action with an accepted status it re-parses the body, raising
a JSON parse error on unparseable text, and fails with
resourceNotFoundError when the versions item list is falsy (in
particular, empty); with an accepted status it succeeds for every
non-search action regardless of body, and for the search action whenever
the item list is non-falsy.  It inspects no other body content and, by
construction, touches no state. -/
theorem c5_response_validator :
    (∀ (resp : HttpResponse) (action : String), ¬ acceptedStatus resp.status_code →
      error_handling resp action = some .apiTransportError)
  ∧ (∀ (resp : HttpResponse) (j vs items : Json), acceptedStatus resp.status_code →
      resp.body = some j → j.getKey "versions" = some vs →
      vs.getKey "items" = some items → items.isFalsy = true →
      error_handling resp "search" = some .resourceNotFoundError)
  ∧ (∀ (resp : HttpResponse) (j vs items : Json), acceptedStatus resp.status_code →
      resp.body = some j → j.getKey "versions" = some vs →
      vs.getKey "items" = some items → items.isFalsy = false →
      error_handling resp "search" = none)
  ∧ (∀ (resp : HttpResponse) (action : String), acceptedStatus resp.status_code →
      action ≠ "search" → error_handling resp action = none)
  ∧ (∀ (resp : HttpResponse), acceptedStatus resp.status_code → resp.body = none →
      error_handling resp "search" = some .jsonParseError) := by
  refine ⟨?_, ?_, ?_, ?_, ?_⟩
  · intro resp action h
    unfold error_handling
    rw [if_neg h]
  · intro resp j vs items hacc hb hvs hit hf
    simp [error_handling, hacc, hb, hvs, hit, hf]
  · intro resp j vs items hacc hb hvs hit hf
    simp [error_handling, hacc, hb, hvs, hit, hf]
  · intro resp action hacc hne
    simp [error_handling, hacc, hne]
  · intro resp hacc hb
    simp [error_handling, hacc, hb]

/-- Claim C5 counterexample: a completed exchange with accepted status 200
and unparseable body under the search action neither succeeds nor fails
with one of the two failures the claim allows — the validator raises the
JSON parse exception. -/
theorem c5_counterexample :
    error_handling ⟨200, none⟩ "search" = some .jsonParseError ∧
    some ErrKind.jsonParseError ≠ some ErrKind.apiTransportError ∧
    some ErrKind.jsonParseError ≠ some ErrKind.resourceNotFoundError ∧
    some ErrKind.jsonParseError ≠ (none : Option ErrKind) := by
  refine ⟨by decide, by decide, by decide, by decide⟩

/-- Claim C5 witness: each amended case realized on a concrete exchange. -/
theorem c5_response_validator_witness :
    error_handling ⟨500, some (.obj [])⟩ "create" = some .apiTransportError ∧
    error_handling ⟨200, some searchBodyEmpty⟩ "search" = some .resourceNotFoundError ∧
    error_handling ⟨200, some searchBodyOk⟩ "search" = none ∧
    error_handling ⟨201, some createBodyOk⟩ "create" = none ∧
    error_handling ⟨204, none⟩ "search" = some .jsonParseError := by
  refine ⟨c5_response_validator.1 ⟨500, some (.obj [])⟩ "create" (by decide),
    c5_response_validator.2.1 ⟨200, some searchBodyEmpty⟩ searchBodyEmpty
      (.obj [("items", .arr [])]) (.arr []) (by decide) rfl rfl rfl rfl,
    c5_response_validator.2.2.1 ⟨200, some searchBodyOk⟩ searchBodyOk
      (.obj [("items", .arr [itemActive1])]) (.arr [itemActive1]) (by decide) rfl rfl rfl rfl,
    c5_response_validator.2.2.2.1 ⟨201, some createBodyOk⟩ "create" (by decide) (by decide),
    c5_response_validator.2.2.2.2 ⟨204, none⟩ (by decide) rfl⟩

/-- Claim C9: the rule applier loads the rule document at the path derived
from the property name; a missing file fails the step with
ruleDocumentNotFoundError before any call is made; on success the
operator notes are injected as the top-level comments field of the
submitted replacement body, the single PUT carries the property id and
forked version, and the result dictionary is left untouched — in
particular no raw update response is recorded. -/
theorem c9_rule_applier :
    (∀ (env : Env) (name : String) (pid : Json) (nv notes : String) (r : RunResult),
      env.files (rulePath name) = none →
      update_property env name pid nv notes r = (r, [], some .ruleDocumentNotFoundError))
  ∧ (∀ (doc body : Json) (notes : String),
      Json.setKey doc "comments" (.str notes) = some body →
      body.getKey "comments" = some (.str notes))
  ∧ (∀ (env : Env) (name : String) (pid : Json) (nv notes : String) (r : RunResult)
      (doc body j : Json),
      env.files (rulePath name) = some (some doc) →
      Json.setKey doc "comments" (.str notes) = some body →
      env.updateResponse.body = some j →
      error_handling env.updateResponse "update" = none →
      update_property env name pid nv notes r = (r, [Event.updateRules pid nv body], none)) := by
  refine ⟨?_, ?_, ?_⟩
  · intro env name pid nv notes r h
    simp [update_property, h]
  · intro doc body notes h
    cases doc with
    | obj kvs =>
      simp only [Json.setKey, Option.some.injEq] at h
      rw [← h]
      simp [Json.getKey, getKeyList_setKeyList]
    | null => exact absurd h (by simp [Json.setKey])
    | bool b => exact absurd h (by simp [Json.setKey])
    | num n => exact absurd h (by simp [Json.setKey])
    | str s => exact absurd h (by simp [Json.setKey])
    | arr a => exact absurd h (by simp [Json.setKey])
  · intro env name pid nv notes r doc body j hf hset hb herr
    simp [update_property, hf, hset, hb, herr]

/-- Claim C9 witness: the three cases realized on the demo property. -/
theorem c9_rule_applier_witness :
    update_property envOk "missing" (.str "prp_1") "6" "n" r2v
      = (r2v, [], some .ruleDocumentNotFoundError) ∧
    (Json.obj [("rules", .obj []), ("comments", .str "n")]).getKey "comments"
      = some (.str "n") ∧
    update_property envOk "demo" (.str "prp_1") "6" "n" r2v
      = (r2v, [Event.updateRules (.str "prp_1") "6"
          (.obj [("rules", .obj []), ("comments", .str "n")])], none) := by
  refine ⟨c9_rule_applier.1 envOk "missing" (.str "prp_1") "6" "n" r2v rfl,
    c9_rule_applier.2.1 ruleDocOk (.obj [("rules", .obj []), ("comments", .str "n")]) "n" rfl,
    c9_rule_applier.2.2 envOk "demo" (.str "prp_1") "6" "n" r2v ruleDocOk
      (.obj [("rules", .obj []), ("comments", .str "n")]) (.obj []) rfl rfl rfl rfl⟩

/-- Claim C10: every step parses the response text before error_handling
sees the status code, so a rejected exchange whose text is not valid JSON
raises the JSON parse exception instead of reporting the structured
transport failure. -/
theorem c10_parse_precedes_validation :
    (∀ (env : Env) (n : String) (r : RunResult),
      ¬ acceptedStatus env.searchResponse.status_code →
      env.searchResponse.body = none →
      search_property env n r = (r, [Event.search n], some .jsonParseError))
  ∧ (∀ (env : Env) (pid v : Json) (r : RunResult),
      ¬ acceptedStatus env.createResponse.status_code →
      env.createResponse.body = none →
      create_new_property_version env pid v r
        = (r, [Event.createVersion pid v], some .jsonParseError))
  ∧ (∀ (env : Env) (n : String) (pid : Json) (nv notes : String) (r : RunResult)
      (doc body : Json),
      env.files (rulePath n) = some (some doc) →
      Json.setKey doc "comments" (.str notes) = some body →
      ¬ acceptedStatus env.updateResponse.status_code →
      env.updateResponse.body = none →
      update_property env n pid nv notes r
        = (r, [Event.updateRules pid nv body], some .jsonParseError))
  ∧ (∀ (env : Env) (notes : String) (pid : Json) (net : String) (r : RunResult)
      (fuel : Nat),
      ¬ acceptedStatus (env.activationResponse net).status_code →
      (env.activationResponse net).body = none →
      activate_property env notes pid net r fuel
        = (r, [Event.createActivation pid (activationBody net r.new_version notes)],
           .err .jsonParseError))
  ∧ ErrKind.jsonParseError ≠ ErrKind.apiTransportError := by
  refine ⟨?_, ?_, ?_, ?_, by decide⟩
  · intro env n r _ hb
    simp [search_property, hb]
  · intro env pid v r _ hb
    simp [create_new_property_version, hb]
  · intro env n pid nv notes r doc body hf hset _ hb
    simp [update_property, hf, hset, hb]
  · intro env notes pid net r fuel _ hb
    simp [activate_property, hb]

/-- Claim C10 witness: the four steps against rejected unparseable
responses all raise the parse exception. -/
theorem c10_parse_precedes_validation_witness :
    search_property envBadJson "demo" initial_result
      = (initial_result, [Event.search "demo"], some .jsonParseError) ∧
    create_new_property_version envBadJson (.str "prp_1") (.num 5) r1v
      = (r1v, [Event.createVersion (.str "prp_1") (.num 5)], some .jsonParseError) ∧
    update_property envBadJson "demo" (.str "prp_1") "6" "n" r2v
      = (r2v, [Event.updateRules (.str "prp_1") "6"
          (.obj [("rules", .obj []), ("comments", .str "n")])], some .jsonParseError) ∧
    activate_property envBadJson "n" (.str "prp_1") "STAGING" r2v 3
      = (r2v, [Event.createActivation (.str "prp_1") (activationBody "STAGING" "6" "n")],
         .err .jsonParseError) := by
  refine ⟨c10_parse_precedes_validation.1 envBadJson "demo" initial_result
      (by decide) rfl,
    c10_parse_precedes_validation.2.1 envBadJson (.str "prp_1") (.num 5) r1v
      (by decide) rfl,
    c10_parse_precedes_validation.2.2.1 envBadJson "demo" (.str "prp_1") "6" "n" r2v
      ruleDocOk (.obj [("rules", .obj []), ("comments", .str "n")]) rfl rfl (by decide) rfl,
    c10_parse_precedes_validation.2.2.2.1 envBadJson "n" (.str "prp_1") "STAGING" r2v 3
      (by decide) rfl⟩

/-- Claim C3: on an accepted creation response whose version locator splits
as nonempty prefix, slash, digit group, question mark, nonempty query
(the locator shape dot dot dot slash digits question mark dot dot dot,
with no newline and a single question mark), the fork step records
exactly that digit group as the new version and flips the changed flag;
on an accepted creation response whose locator has no such decomposition
the regex finds nothing (completeness of the first-match model) and the
step fails with malformedResponseError; and no other step of the
workflow ever writes the changed flag. -/
theorem c3_fork_version_extraction :
    (∀ (env : Env) (pid v : Json) (r : RunResult) (j : Json) (s : String)
      (a d b : List Char),
      acceptedStatus env.createResponse.status_code →
      env.createResponse.body = some j →
      j.getKey "versionLink" = some (.str s) →
      s.data = a ++ '/' :: (d ++ '?' :: b) →
      a ≠ [] → d ≠ [] → d.all Char.isDigit = true → b ≠ [] →
      (∀ x ∈ s.data, x ≠ '\n') → '?' ∉ b →
      create_new_property_version env pid v r
        = ({ r with
             api_creation_response := some j
             new_version := String.mk d
             changed := true }, [Event.createVersion pid v], none))
  ∧ (∀ (env : Env) (pid v : Json) (r : RunResult) (j : Json) (s : String),
      acceptedStatus env.createResponse.status_code →
      env.createResponse.body = some j →
      j.getKey "versionLink" = some (.str s) →
      reFirstGroup s.data = none →
      create_new_property_version env pid v r
        = ({ r with api_creation_response := some j }, [Event.createVersion pid v],
           some .malformedResponseError))
  ∧ (∀ (l ds : List Char), reFirstGroup l = some ds →
      ∃ a b, l = a ++ '/' :: (ds ++ '?' :: b) ∧ a ≠ [] ∧ ds ≠ [] ∧
        ds.all Char.isDigit = true ∧ b ≠ [])
  ∧ (∀ (env : Env) (n : String) (r : RunResult),
      ((search_property env n r).1).changed = r.changed)
  ∧ (∀ (env : Env) (pid v : Json) (r r' : RunResult) (t : List Event) (e : ErrKind),
      create_new_property_version env pid v r = (r', t, some e) →
      r'.changed = r.changed)
  ∧ (∀ (env : Env) (n : String) (pid : Json) (nv notes : String) (r : RunResult),
      ((update_property env n pid nv notes r).1).changed = r.changed)
  ∧ (∀ (env : Env) (notes : String) (pid : Json) (net : String) (r : RunResult)
      (fuel : Nat),
      ((activate_property env notes pid net r fuel).1).changed = r.changed) := by
  refine ⟨?_, ?_, reFirstGroup_complete, search_property_changed, ?_, ?_, ?_⟩
  · intro env pid v r j s a d b hacc hb hk hsdata ha hdne hd hbne hnl hq
    have herr : error_handling env.createResponse "create" = none := by
      simp [error_handling, hacc]
    have hre : reFirstGroup s.data = some d := by
      rw [hsdata]
      exact reFirstGroup_of_decomp a d b ha hd hdne hbne (hsdata ▸ hnl) hq
    simp [create_new_property_version, hb, herr, hk, hre]
  · intro env pid v r j s hacc hb hk hre
    have herr : error_handling env.createResponse "create" = none := by
      simp [error_handling, hacc]
    simp [create_new_property_version, hb, herr, hk, hre]
  · intro env pid v r r' t e h
    exact create_version_err_changed env pid v r r' t e h
  · intro env n pid nv notes r
    rw [update_property_state]
  · intro env notes pid net r fuel
    exact (activate_property_state env notes pid net r fuel).1

/-- Claim C3 witness: the demo creation locator yields version 6 with the
changed flag flipped; the locator nope yields the malformed failure; the
completeness conjunct realized on a small locator; the preservation
conjuncts realized on the demo run states. -/
theorem c3_fork_version_extraction_witness :
    create_new_property_version envOk (.str "prp_1") (.num 5) r1v
      = ({ r1v with
           api_creation_response := some createBodyOk
           new_version := String.mk ['6']
           changed := true },
         [Event.createVersion (.str "prp_1") (.num 5)], none) ∧
    create_new_property_version envCreateMalformed (.str "prp_1") (.num 5) r1v
      = ({ r1v with api_creation_response := some (.obj [("versionLink", .str "nope")]) },
         [Event.createVersion (.str "prp_1") (.num 5)], some .malformedResponseError) ∧
    (∃ a b, "x/6?y".data = a ++ '/' :: (['6'] ++ '?' :: b) ∧ a ≠ [] ∧ ['6'] ≠ [] ∧
      List.all ['6'] Char.isDigit = true ∧ b ≠ []) ∧
    ((search_property envOk "demo" initial_result).1).changed = initial_result.changed ∧
    ({ r1v with api_creation_response := some (.obj [("versionLink", .str "nope")]) } :
      RunResult).changed = r1v.changed ∧
    ((update_property envOk "demo" (.str "prp_1") "6" "n" r2v).1).changed = r2v.changed ∧
    ((activate_property envOk "n" (.str "prp_1") "STAGING" r2v 3).1).changed
      = r2v.changed := by
  refine ⟨?_, ?_, ?_, ?_, ?_, ?_, ?_⟩
  · exact c3_fork_version_extraction.1 envOk (.str "prp_1") (.num 5) r1v createBodyOk
      createLinkOk "/papi/v1/properties/prp_1/versions".data ['6'] "contractId=ctr_1".data
      (by decide) rfl rfl (by decide) (by decide) (by decide) (by decide) (by decide)
      (by decide) (by decide)
  · exact c3_fork_version_extraction.2.1 envCreateMalformed (.str "prp_1") (.num 5) r1v
      (.obj [("versionLink", .str "nope")]) "nope" (by decide) rfl rfl (by decide)
  · exact c3_fork_version_extraction.2.2.1 "x/6?y".data ['6'] (by decide)
  · exact c3_fork_version_extraction.2.2.2.1 envOk "demo" initial_result
  · exact c3_fork_version_extraction.2.2.2.2.1 envCreateMalformed (.str "prp_1") (.num 5)
      r1v _ _ .malformedResponseError rfl
  · exact c3_fork_version_extraction.2.2.2.2.2.1 envOk "demo" (.str "prp_1") "6" "n" r2v
  · exact c3_fork_version_extraction.2.2.2.2.2.2 envOk "n" (.str "prp_1") "STAGING" r2v 3

/-- Claim C2: the poll loop fetches the status locator with a fixed sleep
of 10 between consecutive fetches and returns exactly when the first
item's status equals ACTIVE: with k well-formed non-ACTIVE statuses
followed by an ACTIVE one it does exactly k + 1 fetches; on the sequence
PENDING, PENDING, ACTIVE it does exactly three fetches (two sleeps of 10
between them) and returns after the third; and on any infinite sequence
of well-formed statuses never equal to ACTIVE — failure and abort
statuses included — no amount of fuel makes the loop return. -/
theorem c2_activation_polling :
    (∀ (resp : Nat → HttpResponse) (link : String) (k fuel : Nat),
      (∀ n, n < k → ∃ j st, (resp n).body = some j ∧ firstItemStatus j = .ok st ∧
        st.eqStr "ACTIVE" = false) →
      (∃ j, (resp k).body = some j ∧ firstItemStatus j = .ok (.str "ACTIVE")) →
      k < fuel →
      poll resp link 0 fuel = (pollTrace link k, .ok))
  ∧ (∀ (link : String) (fuel : Nat), 3 ≤ fuel →
      poll respPPA link 0 fuel
        = ([Event.fetchStatus link, Event.sleep 10, Event.fetchStatus link,
            Event.sleep 10, Event.fetchStatus link], .ok))
  ∧ (∀ (resp : Nat → HttpResponse) (link : String),
      (∀ n, ∃ j st, (resp n).body = some j ∧ firstItemStatus j = .ok st ∧
        st.eqStr "ACTIVE" = false) →
      ∀ fuel i, (poll resp link i fuel).2 = .hung) := by
  refine ⟨?_, ?_, poll_never_active⟩
  · intro resp link k fuel hpre hact hf
    refine poll_success k resp link 0 fuel ?_ ?_ hf
    · intro n hn
      simpa using hpre n hn
    · simpa using hact
  · intro link fuel hf
    have h2 : poll respPPA link 0 fuel = (pollTrace link 2, .ok) := by
      refine poll_success 2 respPPA link 0 fuel ?_ ?_ (by omega)
      · intro n hn
        refine ⟨.obj [("activations",
          .obj [("items", .arr [.obj [("status", .str "PENDING")]])])],
          .str "PENDING", ?_, rfl, rfl⟩
        simp [respPPA, statusResponseOf, hn]
      · exact ⟨.obj [("activations",
          .obj [("items", .arr [.obj [("status", .str "ACTIVE")]])])], rfl, rfl⟩
    rw [h2]
    rfl

/-- Claim C2 witness: an immediately ACTIVE status returns after one fetch;
PENDING, PENDING, ACTIVE returns after exactly three fetches with the
two sleeps of 10 between them; a permanently PENDING status leaves the
loop unreturned at any fuel. -/
theorem c2_activation_polling_witness :
    poll (fun _ => statusResponseOf "ACTIVE") "atv" 0 1 = (pollTrace "atv" 0, .ok) ∧
    poll respPPA "atv" 0 3
      = ([Event.fetchStatus "atv", Event.sleep 10, Event.fetchStatus "atv",
          Event.sleep 10, Event.fetchStatus "atv"], .ok) ∧
    (poll respPending "atv" 0 7).2 = .hung := by
  refine ⟨?_, ?_, ?_⟩
  · exact c2_activation_polling.1 (fun _ => statusResponseOf "ACTIVE") "atv" 0 1
      (fun n hn => absurd hn (by omega))
      ⟨.obj [("activations", .obj [("items", .arr [.obj [("status", .str "ACTIVE")]])])],
        rfl, rfl⟩
      (by omega)
  · exact c2_activation_polling.2.1 "atv" 3 (by omega)
  · exact c2_activation_polling.2.2 respPending "atv"
      (fun n => ⟨.obj [("activations",
        .obj [("items", .arr [.obj [("status", .str "PENDING")]])])],
        .str "PENDING", rfl, rfl, rfl⟩) 7 0

/-- A non-active item is trivially safe for the scan loop. -/
theorem itemInactive_wellFormed (j : Json) (h : itemInactive j) : itemWellFormed j := by
  obtain ⟨s, hs, hne⟩ := h
  exact ⟨s, hs, fun hact => absurd hact (by simp [hne])⟩

/-- Claim C4: the scan walks the whole item list without stopping early, so
with several production-active entries the last one in API order
determines the recorded propertyId and current_version; in particular a
search response whose list holds exactly one production-active item with
version v and id p makes locate record (p, v). -/
theorem c4_locator_scan :
    (∀ (l1 : List Json) (item : Json) (l2 : List Json) (st pv pid : Json)
      (r : RunResult),
      (∀ x ∈ l1, itemWellFormed x) →
      item.getKey "productionStatus" = some st → st.eqStr "ACTIVE" = true →
      item.getKey "propertyVersion" = some pv → item.getKey "propertyId" = some pid →
      (∀ x ∈ l2, itemInactive x) →
      scan_items (l1 ++ item :: l2) r
        = ({ r with current_version := pv, propertyId := pid }, none))
  ∧ (∀ (env : Env) (name : String) (body vs : Json) (l1 l2 : List Json)
      (item st pv pid : Json),
      acceptedStatus env.searchResponse.status_code →
      env.searchResponse.body = some body →
      body.getKey "versions" = some vs →
      vs.getKey "items" = some (.arr (l1 ++ item :: l2)) →
      (∀ x ∈ l1, itemInactive x) → (∀ x ∈ l2, itemInactive x) →
      item.getKey "productionStatus" = some st → st.eqStr "ACTIVE" = true →
      item.getKey "propertyVersion" = some pv → item.getKey "propertyId" = some pid →
      search_property env name initial_result
        = ({ initial_result with
             api_search_response := some body
             current_version := pv
             propertyId := pid }, [Event.search name], none)) := by
  constructor
  · intro l1 item l2 st pv pid r hwf hst hact hpv hpid hl2
    exact scan_items_last_active l1 item l2 st pv pid hst hact hpv hpid hl2 r hwf
  · intro env name body vs l1 l2 item st pv pid hacc hb hvs hit h1 h2 hst hact hpv hpid
    have herr : error_handling env.searchResponse "search" = none := by
      simp [error_handling, hacc, hb, hvs, hit, Json.isFalsy]
    have hscan := scan_items_last_active l1 item l2 st pv pid hst hact hpv hpid h2
      { initial_result with api_search_response := some body }
      (fun x hx => itemInactive_wellFormed x (h1 x hx))
    simp [search_property, hb, herr, hvs, hit, hscan]

/-- Claim C4 witness: with an earlier active version 3 entry and a later
active version 5 entry, the later one wins; on the one-active-item demo
response, locate records id prp_1 and version 5. -/
theorem c4_locator_scan_witness :
    scan_items [.obj [("productionStatus", .str "ACTIVE"), ("propertyVersion", .num 3),
        ("propertyId", .str "prp_0")], itemActive1] initial_result
      = ({ initial_result with current_version := .num 5, propertyId := .str "prp_1" },
         none) ∧
    search_property envOk "demo" initial_result
      = ({ initial_result with
           api_search_response := some searchBodyOk
           current_version := .num 5
           propertyId := .str "prp_1" }, [Event.search "demo"], none) := by
  constructor
  · exact c4_locator_scan.1
      [.obj [("productionStatus", .str "ACTIVE"), ("propertyVersion", .num 3),
        ("propertyId", .str "prp_0")]]
      itemActive1 [] (.str "ACTIVE") (.num 5) (.str "prp_1") initial_result
      (fun x hx => by
        rw [List.mem_singleton] at hx
        subst hx
        exact ⟨.str "ACTIVE", rfl, fun _ => ⟨⟨.num 3, rfl⟩, ⟨.str "prp_0", rfl⟩⟩⟩)
      rfl rfl rfl rfl
      (fun x hx => absurd hx (List.not_mem_nil x))
  · exact c4_locator_scan.2 envOk "demo" searchBodyOk (.obj [("items", .arr [itemActive1])])
      [] [] itemActive1 (.str "ACTIVE") (.num 5) (.str "prp_1")
      (by decide) rfl rfl rfl
      (fun x hx => absurd hx (List.not_mem_nil x))
      (fun x hx => absurd hx (List.not_mem_nil x))
      rfl rfl rfl rfl

/-- Claim C6: with an accepted search status and a parsed body carrying a
version list, locate fails with resourceNotFoundError exactly when that
list is empty; on a non-empty list with no production-active item the
step does not fail, the property fields keep their seeded empty-string
values, and the workflow proceeds into the fork step carrying those
empty identifiers. -/
theorem c6_locate_empty_vs_no_active :
    (∀ (env : Env) (name : String) (r : RunResult) (body vs : Json) (l : List Json),
      acceptedStatus env.searchResponse.status_code →
      env.searchResponse.body = some body →
      body.getKey "versions" = some vs →
      vs.getKey "items" = some (.arr l) →
      ((search_property env name r).2.2 = some .resourceNotFoundError ↔ l = []))
  ∧ (∀ (env : Env) (name : String) (body vs : Json) (l : List Json),
      acceptedStatus env.searchResponse.status_code →
      env.searchResponse.body = some body →
      body.getKey "versions" = some vs →
      vs.getKey "items" = some (.arr l) →
      l ≠ [] → (∀ x ∈ l, itemInactive x) →
      search_property env name initial_result
        = ({ initial_result with api_search_response := some body },
           [Event.search name], none) ∧
      ({ initial_result with api_search_response := some body } : RunResult).propertyId
        = .str "" ∧
      ({ initial_result with api_search_response := some body } : RunResult).current_version
        = .str "")
  ∧ (∀ (env : Env) (p : ModuleParams) (fuel : Nat) (body vs : Json) (l : List Json),
      acceptedStatus env.searchResponse.status_code →
      env.searchResponse.body = some body →
      body.getKey "versions" = some vs →
      vs.getKey "items" = some (.arr l) →
      l ≠ [] → (∀ x ∈ l, itemInactive x) →
      ∃ rest, (run_module env p false fuel).2
        = Event.search p.name :: Event.createVersion (.str "") (.str "") :: rest) := by
  have key : ∀ (env : Env) (name : String) (body vs : Json) (l : List Json),
      acceptedStatus env.searchResponse.status_code →
      env.searchResponse.body = some body →
      body.getKey "versions" = some vs →
      vs.getKey "items" = some (.arr l) →
      l ≠ [] → (∀ x ∈ l, itemInactive x) →
      search_property env name initial_result
        = ({ initial_result with api_search_response := some body },
           [Event.search name], none) := by
    intro env name body vs l hacc hb hvs hit hl hinact
    have herr : error_handling env.searchResponse "search" = none := by
      simp [error_handling, hacc, hb, hvs, hit, Json.isFalsy, hl]
    have hscan := scan_items_inactive l
      { initial_result with api_search_response := some body } hinact
    simp [search_property, hb, herr, hvs, hit, hscan]
  refine ⟨?_, ?_, ?_⟩
  · intro env name r body vs l hacc hb hvs hit
    by_cases hl : l = []
    · subst hl
      have herr : error_handling env.searchResponse "search"
          = some .resourceNotFoundError := by
        simp [error_handling, hacc, hb, hvs, hit, Json.isFalsy]
      simp [search_property, hb, herr]
    · have herr : error_handling env.searchResponse "search" = none := by
        simp [error_handling, hacc, hb, hvs, hit, Json.isFalsy, hl]
      have hscan := scan_items_no_rnfe l { r with api_search_response := some body }
      simp [search_property, hb, herr, hvs, hit, hl]
      exact hscan
  · intro env name body vs l hacc hb hvs hit hl hinact
    exact ⟨key env name body vs l hacc hb hvs hit hl hinact, rfl, rfl⟩
  · intro env p fuel body vs l hacc hb hvs hit hl hinact
    have hsearch := key env p.name body vs l hacc hb hvs hit hl hinact
    rcases hc : create_new_property_version env
      ({ initial_result with api_search_response := some body } : RunResult).propertyId
      ({ initial_result with api_search_response := some body} : RunResult).current_version
      { initial_result with api_search_response := some body } with ⟨r2, t2, oe⟩
    have ht2 : t2 = [Event.createVersion (.str "") (.str "")] := by
      have htr := create_version_trace env
        ({ initial_result with api_search_response := some body } : RunResult).propertyId
        ({ initial_result with api_search_response := some body} : RunResult).current_version
        { initial_result with api_search_response := some body }
      rw [hc] at htr
      simpa using htr
    cases oe with
    | some e =>
      refine ⟨[], ?_⟩
      rw [run_module_create_err env p fuel _ r2 _ t2 e hsearch hc, ht2]
      rfl
    | none =>
      rcases hu : update_property env p.name r2.propertyId r2.new_version
        p.version_notes r2 with ⟨r3, t3, oe2⟩
      cases oe2 with
      | some e =>
        refine ⟨t3, ?_⟩
        rw [run_module_update_err env p fuel _ r2 r3 _ t2 t3 e hsearch hc hu, ht2]
        rfl
      | none =>
        refine ⟨t3 ++ (run_activations env p r3 fuel).2, ?_⟩
        rw [run_module_core_ok env p fuel _ r2 r3 _ t2 t3 hsearch hc hu, ht2]
        rfl

/-- Claim C6 witness: an empty item list fails with the not-found error; a
single non-active item leaves the seeded fields untouched and the run
proceeds into the fork step with empty identifiers. -/
theorem c6_locate_empty_vs_no_active_witness :
    (search_property envSearchEmpty "demo" initial_result).2.2
      = some .resourceNotFoundError ∧
    search_property envNoActive "demo" initial_result
      = ({ initial_result with api_search_response := some searchBodyNoActive },
         [Event.search "demo"], none) ∧
    (∃ rest, (run_module envNoActive paramsDemo false 3).2
      = Event.search "demo" :: Event.createVersion (.str "") (.str "") :: rest) := by
  refine ⟨?_, ?_, ?_⟩
  · exact (c6_locate_empty_vs_no_active.1 envSearchEmpty "demo" initial_result
      searchBodyEmpty (.obj [("items", .arr [])]) [] (by decide) rfl rfl rfl).mpr rfl
  · exact (c6_locate_empty_vs_no_active.2.1 envNoActive "demo" searchBodyNoActive
      (.obj [("items", .arr [itemNotActive1])]) [itemNotActive1] (by decide) rfl rfl rfl
      (by simp)
      (fun x hx => by
        rw [List.mem_singleton] at hx
        subst hx
        exact ⟨.str "INACTIVE", rfl, rfl⟩)).1
  · exact c6_locate_empty_vs_no_active.2.2 envNoActive paramsDemo 3 searchBodyNoActive
      (.obj [("items", .arr [itemNotActive1])]) [itemNotActive1] (by decide) rfl rfl rfl
      (by simp)
      (fun x hx => by
        rw [List.mem_singleton] at hx
        subst hx
        exact ⟨.str "INACTIVE", rfl, rfl⟩)

/-- Claim C1: the orchestrator runs the fixed sequence search, fork (seeded
with the discovered propertyId and current_version), update (applied to
the version forked in this run), then staging and production activations
when requested.  The first failure of any step aborts every remaining
step and the failure report carries the result fields populated so far;
the production activation is attempted only after a requested staging
activation has returned from its poll loop (reached ACTIVE): while the
staging activation fails or never terminates, the only activation
request in the whole activation phase is the staging one. -/
theorem c1_orchestrator_fixed_sequence :
    (∀ (env : Env) (p : ModuleParams) (fuel : Nat) (r1 : RunResult) (t1 : List Event)
      (e : ErrKind),
      search_property env p.name initial_result = (r1, t1, some e) →
      run_module env p false fuel = (.failed e r1, t1))
  ∧ (∀ (env : Env) (p : ModuleParams) (fuel : Nat) (r1 r2 : RunResult)
      (t1 t2 : List Event) (e : ErrKind),
      search_property env p.name initial_result = (r1, t1, none) →
      create_new_property_version env r1.propertyId r1.current_version r1
        = (r2, t2, some e) →
      run_module env p false fuel = (.failed e r2, t1 ++ t2))
  ∧ (∀ (env : Env) (p : ModuleParams) (fuel : Nat) (r1 r2 r3 : RunResult)
      (t1 t2 t3 : List Event) (e : ErrKind),
      search_property env p.name initial_result = (r1, t1, none) →
      create_new_property_version env r1.propertyId r1.current_version r1
        = (r2, t2, none) →
      update_property env p.name r2.propertyId r2.new_version p.version_notes r2
        = (r3, t3, some e) →
      run_module env p false fuel = (.failed e r3, t1 ++ t2 ++ t3))
  ∧ (∀ (env : Env) (p : ModuleParams) (fuel : Nat) (r1 r2 r3 : RunResult)
      (t1 t2 t3 : List Event),
      search_property env p.name initial_result = (r1, t1, none) →
      create_new_property_version env r1.propertyId r1.current_version r1
        = (r2, t2, none) →
      update_property env p.name r2.propertyId r2.new_version p.version_notes r2
        = (r3, t3, none) →
      run_module env p false fuel =
        ((run_activations env p r3 fuel).1,
         t1 ++ t2 ++ t3 ++ (run_activations env p r3 fuel).2))
  ∧ (∀ (env : Env) (p : ModuleParams) (r : RunResult) (fuel : Nat) (r' : RunResult)
      (t : List Event) (e : ErrKind),
      p.activate_staging = true →
      activate_property env p.version_notes r.propertyId "STAGING" r fuel
        = (r', t, .err e) →
      run_activations env p r fuel = (.failed e r', t))
  ∧ (∀ (env : Env) (p : ModuleParams) (r : RunResult) (fuel : Nat) (r' : RunResult)
      (t : List Event),
      p.activate_staging = true →
      activate_property env p.version_notes r.propertyId "STAGING" r fuel
        = (r', t, .hung) →
      run_activations env p r fuel = (.hung r', t))
  ∧ (∀ (env : Env) (p : ModuleParams) (r : RunResult) (fuel : Nat) (r' : RunResult)
      (t : List Event),
      p.activate_staging = true →
      activate_property env p.version_notes r.propertyId "STAGING" r fuel
        = (r', t, .ok) →
      run_activations env p r fuel =
        ((run_production env p r' fuel).1, t ++ (run_production env p r' fuel).2))
  ∧ (∀ (env : Env) (p : ModuleParams) (r : RunResult) (fuel : Nat),
      p.activate_staging = false →
      run_activations env p r fuel = run_production env p r fuel)
  ∧ (∀ (env : Env) (p : ModuleParams) (r : RunResult) (fuel : Nat) (r' : RunResult)
      (t : List Event),
      p.activate_production = true →
      activate_property env p.version_notes r.propertyId "PRODUCTION" r fuel
        = (r', t, .ok) →
      run_production env p r fuel = (finish p r', t))
  ∧ (∀ (env : Env) (p : ModuleParams) (r : RunResult) (fuel : Nat) (r' : RunResult)
      (t : List Event) (e : ErrKind),
      p.activate_production = true →
      activate_property env p.version_notes r.propertyId "PRODUCTION" r fuel
        = (r', t, .err e) →
      run_production env p r fuel = (.failed e r', t))
  ∧ (∀ (env : Env) (p : ModuleParams) (r : RunResult) (fuel : Nat) (r' : RunResult)
      (t : List Event),
      p.activate_production = true →
      activate_property env p.version_notes r.propertyId "PRODUCTION" r fuel
        = (r', t, .hung) →
      run_production env p r fuel = (.hung r', t))
  ∧ (∀ (env : Env) (p : ModuleParams) (r : RunResult) (fuel : Nat),
      p.activate_production = false →
      run_production env p r fuel = (finish p r, []))
  ∧ (∀ (env : Env) (p : ModuleParams) (r : RunResult) (fuel : Nat) (r' : RunResult)
      (t : List Event) (out : ActOutcome),
      p.activate_staging = true →
      activate_property env p.version_notes r.propertyId "STAGING" r fuel
        = (r', t, out) →
      out ≠ .ok →
      ∀ (pid body : Json), Event.createActivation pid body ∈ (run_activations env p r fuel).2 →
        body = activationBody "STAGING" r.new_version p.version_notes) := by
  refine ⟨run_module_search_err, run_module_create_err, run_module_update_err,
    run_module_core_ok, run_activations_staging_err, run_activations_staging_hung,
    run_activations_staging_ok, run_activations_no_staging, run_production_ok,
    run_production_err, run_production_hung, run_production_not_requested, ?_⟩
  intro env p r fuel r' t out hst hact hout pid body hmem
  have hkey : Event.createActivation pid body
      ∈ (activate_property env p.version_notes r.propertyId "STAGING" r fuel).2.1 := by
    cases out with
    | ok => exact absurd rfl hout
    | err e =>
      rw [run_activations_staging_err env p r fuel r' t e hst hact] at hmem
      rw [hact]
      exact hmem
    | hung =>
      rw [run_activations_staging_hung env p r fuel r' t hst hact] at hmem
      rw [hact]
      exact hmem
  exact (activate_property_mem env p.version_notes r.propertyId "STAGING" r fuel
    pid body hkey).2

/-- Claim C1 witness: every conjunct realized on a concrete run — a
rejected search, a malformed creation locator, a rejected update, the
all-successful run, and staging or production activations that fail,
hang at zero fuel, or reach ACTIVE. -/
theorem c1_orchestrator_fixed_sequence_witness :
    run_module envSearchFail paramsDemo false 3
      = (.failed .apiTransportError
          { initial_result with api_search_response := some (.obj []) },
         [Event.search "demo"]) ∧
    run_module envCreateMalformed paramsDemo false 3
      = (.failed .malformedResponseError
          { r1v with api_creation_response := some (.obj [("versionLink", .str "nope")]) },
         [Event.search "demo", Event.createVersion (.str "prp_1") (.num 5)]) ∧
    run_module envUpdateFail paramsDemo false 3
      = (.failed .apiTransportError r2v,
         [Event.search "demo", Event.createVersion (.str "prp_1") (.num 5),
          Event.updateRules (.str "prp_1") "6"
            (.obj [("rules", .obj []), ("comments", .str "n")])]) ∧
    run_module envOk paramsNone false 3
      = ((run_activations envOk paramsNone r2v 3).1,
         [Event.search "demo", Event.createVersion (.str "prp_1") (.num 5),
          Event.updateRules (.str "prp_1") "6"
            (.obj [("rules", .obj []), ("comments", .str "n")])]
           ++ (run_activations envOk paramsNone r2v 3).2) ∧
    run_activations envActivateFail paramsDemo r2v 3
      = (.failed .apiTransportError { r2v with api_activation_response := some (.obj []) },
         [Event.createActivation (.str "prp_1") (activationBody "STAGING" "6" "n")]) ∧
    run_activations envOk paramsDemo r2v 0
      = (.hung { r2v with api_activation_response := some activationRespBody },
         [Event.createActivation (.str "prp_1") (activationBody "STAGING" "6" "n")]) ∧
    run_activations envOk paramsDemo r2v 3
      = ((run_production envOk paramsDemo
            { r2v with api_activation_response := some activationRespBody } 3).1,
         [Event.createActivation (.str "prp_1") (activationBody "STAGING" "6" "n"),
          Event.fetchStatus activationLinkOk]
           ++ (run_production envOk paramsDemo
                { r2v with api_activation_response := some activationRespBody } 3).2) ∧
    run_activations envOk paramsNone r2v 3 = run_production envOk paramsNone r2v 3 ∧
    run_production envOk paramsProdOnly r2v 3
      = (finish paramsProdOnly { r2v with api_activation_response := some activationRespBody },
         [Event.createActivation (.str "prp_1") (activationBody "PRODUCTION" "6" "n"),
          Event.fetchStatus activationLinkOk]) ∧
    run_production envActivateFail paramsProdOnly r2v 3
      = (.failed .apiTransportError { r2v with api_activation_response := some (.obj []) },
         [Event.createActivation (.str "prp_1") (activationBody "PRODUCTION" "6" "n")]) ∧
    run_production envOk paramsProdOnly r2v 0
      = (.hung { r2v with api_activation_response := some activationRespBody },
         [Event.createActivation (.str "prp_1") (activationBody "PRODUCTION" "6" "n")]) ∧
    run_production envOk paramsDemo r2v 3 = (finish paramsDemo r2v, []) ∧
    activationBody "STAGING" "6" "n"
      = activationBody "STAGING" r2v.new_version paramsDemo.version_notes := by
  obtain ⟨h1, h2, h3, h4, h5, h6, h7, h8, h9, h10, h11, h12, h13⟩ :=
    c1_orchestrator_fixed_sequence
  refine ⟨h1 envSearchFail paramsDemo 3 _ _ _ rfl,
    h2 envCreateMalformed paramsDemo 3 r1v _ _ _ _ rfl rfl,
    h3 envUpdateFail paramsDemo 3 r1v r2v r2v _ _ _ _ rfl rfl rfl,
    h4 envOk paramsNone 3 r1v r2v r2v _ _ _ rfl rfl rfl,
    h5 envActivateFail paramsDemo r2v 3 _ _ _ rfl rfl,
    h6 envOk paramsDemo r2v 0 _ _ rfl rfl,
    h7 envOk paramsDemo r2v 3 _ _ rfl rfl,
    h8 envOk paramsNone r2v 3 rfl,
    h9 envOk paramsProdOnly r2v 3 _ _ rfl rfl,
    h10 envActivateFail paramsProdOnly r2v 3 _ _ _ rfl rfl,
    h11 envOk paramsProdOnly r2v 0 _ _ rfl rfl,
    h12 envOk paramsDemo r2v 3 rfl,
    h13 envActivateFail paramsDemo r2v 3
      { r2v with api_activation_response := some (.obj []) }
      [Event.createActivation (.str "prp_1") (activationBody "STAGING" "6" "n")]
      (.err .apiTransportError) rfl rfl (by decide) (.str "prp_1")
      (activationBody "STAGING" "6" "n") ?_⟩
  rw [run_activations_staging_err envActivateFail paramsDemo r2v 3
    { r2v with api_activation_response := some (.obj []) }
    [Event.createActivation (.str "prp_1") (activationBody "STAGING" "6" "n")]
    .apiTransportError rfl rfl]
  exact List.mem_singleton.mpr rfl

/-- Any activation request emitted by the production branch carries the
body built from the new_version the branch was entered with. -/
theorem run_production_mem (env : Env) (p : ModuleParams) (r : RunResult) (fuel : Nat)
    (pid body : Json)
    (h : Event.createActivation pid body ∈ (run_production env p r fuel).2) :
    body = activationBody "PRODUCTION" r.new_version p.version_notes := by
  by_cases hpr : p.activate_production = true
  · rcases ha : activate_property env p.version_notes r.propertyId "PRODUCTION" r fuel
      with ⟨r', t, out⟩
    have hmem : Event.createActivation pid body ∈ t := by
      cases out with
      | ok => rw [run_production_ok env p r fuel r' t hpr ha] at h ; exact h
      | err e => rw [run_production_err env p r fuel r' t e hpr ha] at h ; exact h
      | hung => rw [run_production_hung env p r fuel r' t hpr ha] at h ; exact h
    have hmem' : Event.createActivation pid body
        ∈ (activate_property env p.version_notes r.propertyId "PRODUCTION" r fuel).2.1 := by
      rw [ha]
      exact hmem
    exact (activate_property_mem env p.version_notes r.propertyId "PRODUCTION" r fuel
      pid body hmem').2
  · have hpr' : p.activate_production = false := by simpa using hpr
    rw [run_production_not_requested env p r fuel hpr'] at h
    simp at h

/-- Any activation request emitted by the whole activation phase carries a
body built from the new_version the phase was entered with. -/
theorem run_activations_mem (env : Env) (p : ModuleParams) (r : RunResult) (fuel : Nat)
    (pid body : Json)
    (h : Event.createActivation pid body ∈ (run_activations env p r fuel).2) :
    body = activationBody "STAGING" r.new_version p.version_notes ∨
    body = activationBody "PRODUCTION" r.new_version p.version_notes := by
  by_cases hst : p.activate_staging = true
  · rcases ha : activate_property env p.version_notes r.propertyId "STAGING" r fuel
      with ⟨r', t, out⟩
    have hstag : Event.createActivation pid body ∈ t →
        body = activationBody "STAGING" r.new_version p.version_notes := by
      intro hmem
      have hmem' : Event.createActivation pid body
          ∈ (activate_property env p.version_notes r.propertyId "STAGING" r fuel).2.1 := by
        rw [ha]
        exact hmem
      exact (activate_property_mem env p.version_notes r.propertyId "STAGING" r fuel
        pid body hmem').2
    cases out with
    | err e =>
      rw [run_activations_staging_err env p r fuel r' t e hst ha] at h
      exact Or.inl (hstag h)
    | hung =>
      rw [run_activations_staging_hung env p r fuel r' t hst ha] at h
      exact Or.inl (hstag h)
    | ok =>
      rw [run_activations_staging_ok env p r fuel r' t hst ha] at h
      rcases List.mem_append.mp h with h | h
      · exact Or.inl (hstag h)
      · have hb := run_production_mem env p r' fuel pid body h
        have hnv : r'.new_version = r.new_version := by
          have h0 := (activate_property_state env p.version_notes r.propertyId
            "STAGING" r fuel).2.1
          rw [ha] at h0
          exact h0
        rw [hnv] at hb
        exact Or.inr hb
  · have hst' : p.activate_staging = false := by simpa using hst
    rw [run_activations_no_staging env p r fuel hst'] at h
    exact Or.inr (run_production_mem env p r fuel pid body h)

/-- Claim C8: every activation request of a run carries a propertyVersion
equal to the version number the fork step of that same run extracted
from the creation response; no unrelated version is ever activated. -/
theorem c8_activation_version_invariant (env : Env) (p : ModuleParams) (cm : Bool)
    (fuel : Nat) (pid body : Json)
    (h : Event.createActivation pid body ∈ (run_module env p cm fuel).2) :
    ∃ v, forkedVersion env = some v ∧
      body.getKey "propertyVersion" = some (.str v) := by
  cases cm with
  | true => simp [run_module] at h
  | false =>
    rcases hs : search_property env p.name initial_result with ⟨r1, t1, oe1⟩
    have ht1 : t1 = [Event.search p.name] := by
      have h0 := search_property_trace env p.name initial_result
      rw [hs] at h0
      exact h0
    cases oe1 with
    | some e =>
      rw [run_module_search_err env p fuel r1 t1 e hs, ht1] at h
      simp at h
    | none =>
      rcases hc : create_new_property_version env r1.propertyId r1.current_version r1
        with ⟨r2, t2, oe2⟩
      have ht2 : t2 = [Event.createVersion r1.propertyId r1.current_version] := by
        have h0 := create_version_trace env r1.propertyId r1.current_version r1
        rw [hc] at h0
        exact h0
      cases oe2 with
      | some e =>
        rw [run_module_create_err env p fuel r1 r2 t1 t2 e hs hc, ht1, ht2] at h
        simp at h
      | none =>
        obtain ⟨hforked, -⟩ := create_version_success env r1.propertyId r1.current_version
          r1 r2 t2 hc
        rcases hu : update_property env p.name r2.propertyId r2.new_version
          p.version_notes r2 with ⟨r3, t3, oe3⟩
        have hr3 : r3 = r2 := by
          have h0 := update_property_state env p.name r2.propertyId r2.new_version
            p.version_notes r2
          rw [hu] at h0
          exact h0
        have ht3 : ∀ ev ∈ t3, ∃ b, ev = Event.updateRules r2.propertyId r2.new_version b := by
          intro ev hev
          apply update_property_trace_mem env p.name r2.propertyId r2.new_version
            p.version_notes r2 ev
          rw [hu]
          exact hev
        cases oe3 with
        | some e =>
          rw [run_module_update_err env p fuel r1 r2 r3 t1 t2 t3 e hs hc hu, ht1, ht2] at h
          simp only [List.mem_append, List.mem_singleton, List.not_mem_nil, or_false] at h
          rcases h with (h | h) | h
          · exact absurd h (by simp)
          · exact absurd h (by simp)
          · obtain ⟨b, hb⟩ := ht3 _ h
            exact absurd hb (by simp)
        | none =>
          rw [run_module_core_ok env p fuel r1 r2 r3 t1 t2 t3 hs hc hu, ht1, ht2] at h
          simp only [List.mem_append, List.mem_singleton, List.not_mem_nil, or_false] at h
          rcases h with ((h | h) | h) | h
          · exact absurd h (by simp)
          · exact absurd h (by simp)
          · obtain ⟨b, hb⟩ := ht3 _ h
            exact absurd hb (by simp)
          · have hb := run_activations_mem env p r3 fuel pid body h
            refine ⟨r2.new_version, hforked, ?_⟩
            rw [hr3] at hb
            rcases hb with hb | hb <;>
              simp [hb, activationBody, Json.getKey, getKeyList]

/-- Claim C8 witness: the staging activation of the demo run carries
propertyVersion 6, the version its fork step extracted. -/
theorem c8_activation_version_invariant_witness :
    ∃ v, forkedVersion envOk = some v ∧
      (activationBody "STAGING" "6" "n").getKey "propertyVersion" = some (.str v) := by
  refine c8_activation_version_invariant envOk paramsDemo false 3 (.str "prp_1")
    (activationBody "STAGING" "6" "n") ?_
  have htr : (run_module envOk paramsDemo false 3).2
      = [Event.search "demo", Event.createVersion (.str "prp_1") (.num 5),
         Event.updateRules (.str "prp_1") "6"
           (.obj [("rules", .obj []), ("comments", .str "n")]),
         Event.createActivation (.str "prp_1") (activationBody "STAGING" "6" "n"),
         Event.fetchStatus activationLinkOk] := rfl
  rw [htr]
  simp
